import Mathlib

/-!
# ruby-oci8 `ext/oci8/tdo.c`: Type Descriptor Objects

A shallow embedding of `ext/oci8/tdo.c` (the `OCI8::TDO` class and the `TDO`
bind class) together with theorems about it.

Conventions of the embedding.

* A Ruby string made by `rb_str_new(ptr, len)` is the list of its `len` bytes
  (`Bytes`); a C string literal is the list of its bytes, the terminating NUL
  being implicit.
* Pointers and handles are natural numbers, `0` being `NULL`.
* `rb_raise` and the failure branch of `oci_lc` / `oci_rc` are the `error`
  side of `Except RbError`.
* Calls into the Oracle client library and into Ruby code that the file does
  not define are fields of `Env` (the describe-time metadata is the tree
  `TypeParam`). Metadata reads (`OCIAttrGet`), `OCIObjectPin`,
  `OCIHandleAlloc` and `rb_obj_alloc` are taken at success; `OCIParamGet`,
  `OCIDescribeAny`, `OCIObjectGetAttr`, `OCIObjectNew` and a class's
  `initialize` may fail.
-/

namespace OCI8

/-- A byte string with explicit length. -/
abbrev Bytes := List Nat

/-! ## Constants of the Oracle headers (`oro.h`, `oci.h`) -/

abbrev OCI_TYPECODE_VARCHAR : Nat := 1
abbrev OCI_TYPECODE_NUMBER : Nat := 2
abbrev OCI_TYPECODE_INTEGER : Nat := 3
abbrev OCI_TYPECODE_FLOAT : Nat := 4
abbrev OCI_TYPECODE_DECIMAL : Nat := 7
abbrev OCI_TYPECODE_VARCHAR2 : Nat := 9
abbrev OCI_TYPECODE_DATE : Nat := 12
abbrev OCI_TYPECODE_REAL : Nat := 21
abbrev OCI_TYPECODE_DOUBLE : Nat := 22
abbrev OCI_TYPECODE_OPAQUE : Nat := 58
abbrev OCI_TYPECODE_RAW : Nat := 95
abbrev OCI_TYPECODE_CHAR : Nat := 96
abbrev OCI_TYPECODE_BFLOAT : Nat := 100
abbrev OCI_TYPECODE_BDOUBLE : Nat := 101
abbrev OCI_TYPECODE_OBJECT : Nat := 108
abbrev OCI_TYPECODE_REF : Nat := 110
abbrev OCI_TYPECODE_CLOB : Nat := 112
abbrev OCI_TYPECODE_BLOB : Nat := 113
abbrev OCI_TYPECODE_BFILE : Nat := 114
abbrev OCI_TYPECODE_NAMEDCOLLECTION : Nat := 122
abbrev OCI_TYPECODE_TIMESTAMP : Nat := 187
abbrev OCI_TYPECODE_TIMESTAMP_TZ : Nat := 188
abbrev OCI_TYPECODE_INTERVAL_YM : Nat := 189
abbrev OCI_TYPECODE_INTERVAL_DS : Nat := 190
abbrev OCI_TYPECODE_TIMESTAMP_LTZ : Nat := 232
abbrev OCI_TYPECODE_SMALLINT : Nat := 246
abbrev OCI_TYPECODE_NCLOB : Nat := 288
/-- Character-set form of national character data. -/
abbrev SQLCS_NCHAR : Nat := 2
/-- Null indicator value of a null attribute or object (`OCI_IND_NOTNULL` is 0). -/
abbrev OCI_IND_NULL : Int := -1

/-! ## Data model -/

/-- The enum `opaque_type` (lines 24-30). -/
inductive opaque_type where
  | NO_OPAQUE
  | OPAQUE_XMLTYPE
  | OPAQUE_ANYDATA
  | OPAQUE_ANYTYPE
  | OPAQUE_ANYDATASET
  deriving DecidableEq, Repr

/-- Ruby classes: `rb_cObject` and the classes a user registers in
`OCI8::TDO::Mapping`. -/
inductive Klass where
  | rb_cObject
  | user (id : Nat)
  deriving DecidableEq, Repr

/-- Ruby exceptions raised by the code, and the one way a loop fails to end. -/
inductive RbError where
  /-- The call `rb_raise(rb_eRuntimeError, msg)` with a fixed message. -/
  | runtime (msg : String)
  /-- The message `"unknown opaque datatype %.*s"` with its argument. -/
  | unknown_opaque_datatype (name : Bytes)
  /-- The message `"unsupported typecode %d"` with its argument. -/
  | unsupported_typecode (typecode : Nat)
  /-- A `TypeError` from `Check_Type` / `Data_Get_Struct`. -/
  | type_error
  /-- A native call returned a non-success status (`oci_lc`, `oci_rc`). -/
  | oci (call : String)
  /-- An exception raised by a user class's `initialize`. -/
  | raised (id : Nat)
  /-- An array is read past its end. -/
  | out_of_bounds
  /-- The `ub2` loop counter cannot pass the bound: the loop never exits normally. -/
  | counter_wraps
  deriving DecidableEq, Repr

/-- The C struct `oci8_tdo_t` of a TDO together with the instance variables
that `oci8_tdo_init` sets, except `@types` (kept in `TypeObj.tdo`). -/
structure oci8_tdo_t where
  /-- Field `base.hp.ptr`: the pinned type handle. -/
  hp : Nat
  svcctx : Nat
  xmlctx : Nat
  opaque_type : opaque_type
  schema_name : Bytes
  type_name : Bytes
  /-- Instance variable `@klass`. -/
  klass : Klass
  /-- Instance variable `@attrs`. -/
  attrs : List Bytes
  /-- Instance variable `@attr_syms`: each symbol is given by its name. -/
  attr_syms : List Bytes
  deriving DecidableEq, Repr

mutual
/-- An element of `@types`: a Fixnum type code (`INT2FIX(typecode)`) or a
nested TDO. -/
inductive TypeObj where
  | fixnum (n : Nat)
  | tdo (d : oci8_tdo_t) (types : TypeList)
/-- The array `@types`. -/
inductive TypeList where
  | nil
  | cons (t : TypeObj) (ts : TypeList)
end

/-- The entries of `@types` as a list. -/
def TypeList.toList : TypeList → List TypeObj
  | .nil => []
  | .cons t ts => t :: ts.toList

/-- The first `n` entries of `@types`. -/
def TypeList.take : Nat → TypeList → TypeList
  | 0, _ => .nil
  | _ + 1, .nil => .nil
  | n + 1, .cons t ts => .cons t (ts.take n)

/-- The array `@types` without its first `n` entries. -/
def TypeList.drop : Nat → TypeList → TypeList
  | 0, ts => ts
  | _ + 1, .nil => .nil
  | n + 1, .cons _ ts => ts.drop n

mutual
/-- Metadata of one type, as the parameter handle given to `oci8_tdo_init`
reports it: `OCI_ATTR_TYPECODE`, the handle `OCIObjectPin` yields for
`OCI_ATTR_REF_TDO`, `OCI_ATTR_SCHEMA_NAME`, `OCI_ATTR_NAME`,
`OCI_ATTR_NUM_TYPE_ATTRS` and `OCI_ATTR_LIST_TYPE_ATTRS`. -/
inductive TypeParam where
  | mk (typecode : Nat) (pinned : Nat) (schema_name : Bytes) (name : Bytes)
      (num_type_attrs : Nat) (list_type_attrs : AttrParamList)
/-- Metadata of one attribute (a parameter `OCIParamGet` returns):
`OCI_ATTR_NAME`, `OCI_ATTR_TYPECODE`, `OCI_ATTR_CHARSET_FORM`, and what
`OCIDescribeAny` reports for its `OCI_ATTR_REF_TDO`. -/
inductive AttrParam where
  | mk (name : Bytes) (typecode : Nat) (csfrm : Nat) (described : Described)
/-- The attribute list; `OCIParamGet(lparam, .., idx)` is its `idx`-th entry
(1-based) and fails past its end. -/
inductive AttrParamList where
  | nil
  | cons (a : AttrParam) (rest : AttrParamList)
/-- Outcome of `OCIDescribeAny` on an attribute's type reference. -/
inductive Described where
  | failed
  | param (p : TypeParam)
end

def AttrParamList.toList : AttrParamList → List AttrParam
  | .nil => []
  | .cons a rest => a :: rest.toList

def TypeParam.typecode : TypeParam → Nat
  | .mk tc _ _ _ _ _ => tc

def TypeParam.name : TypeParam → Bytes
  | .mk _ _ _ n _ _ => n

def TypeParam.schema_name : TypeParam → Bytes
  | .mk _ _ s _ _ _ => s

def TypeParam.pinned : TypeParam → Nat
  | .mk _ p _ _ _ _ => p

def TypeParam.num_type_attrs : TypeParam → Nat
  | .mk _ _ _ _ n _ => n

def TypeParam.list_type_attrs : TypeParam → AttrParamList
  | .mk _ _ _ _ _ l => l

def AttrParam.name : AttrParam → Bytes
  | .mk n _ _ _ => n

def AttrParam.typecode : AttrParam → Nat
  | .mk _ tc _ _ => tc

def AttrParam.csfrm : AttrParam → Nat
  | .mk _ _ c _ => c

/-- The converters defined outside `tdo.c` that build a Ruby value from a
pointer; `rb_float_new` is split by the C type it reads. -/
inductive Conv where
  | oci8_make_ocinumber
  | oci8_make_integer
  | oci8_make_float
  | oci8_make_clob
  | oci8_make_nclob
  | oci8_make_blob
  | oci8_make_bfile
  | oci8_make_datetime_from_ocidate
  | oci8_make_datetime_from_ocidatetime
  | oci8_make_interval_ym
  | oci8_make_interval_ds
  | rb_float_new_float
  | rb_float_new_double
  | oci8_make_rexml
  deriving DecidableEq, Repr

/-- Ruby values that the decoder returns. -/
inductive VALUE where
  | Qnil
  /-- Result of `rb_str_new`. -/
  | str (bytes : Bytes)
  /-- Result of the converter `f(arg)` or `f(ctx, arg)` named by `f`; `ctx`
  is 0 for a converter of one argument. -/
  | made (f : Conv) (ctx : Nat) (arg : Nat)
  /-- An object of class `klass` with its instance variables. -/
  | object (klass : Klass) (ivars : List (Bytes × VALUE))

/-- Instance variables of an object, keyed by the variable's name. -/
abbrev Ivars := List (Bytes × VALUE)

/-- What a successful `OCIObjectGetAttr` stores through its out-pointers. -/
structure AttrOut where
  attr_null_status : Int
  attr_null_struct : Nat
  attr_value : Nat
  attr_tdo : Nat
  deriving DecidableEq, Repr

/-- The build option and the functions defined outside `tdo.c`. -/
structure Env where
  /-- Whether the file is compiled with `HAVE_OCIXMLDB`. -/
  HAVE_OCIXMLDB : Bool
  /-- The hash `OCI8::TDO::Mapping`, which registers a class for a type name;
  `rb_hash_aref` is `List.lookup`, its nil being `none`. -/
  mapping : List (Bytes × Klass)
  /-- The context `OCIXmlDbInitXmlCtx` returns for a service context. -/
  OCIXmlDbInitXmlCtx : Nat → Nat
  /-- Lower-casing of a NUL-terminated string
  (`OCIMultiByteStrCaseConversion` with `OCI_NLS_LOWERCASE`). -/
  OCIMultiByteStrCaseConversion : Bytes → Bytes
  /-- The call `OCIObjectGetAttr(.., instance, null_struct, tdo, &name, &namelen, 1, ..)`;
  `none` is a non-success status. -/
  OCIObjectGetAttr : (inst null_struct tdo : Nat) → (name : Bytes) → Option AttrOut
  /-- The call `OCITypeTypeCode(.., attr_tdo)`. -/
  OCITypeTypeCode : Nat → Nat
  /-- Reading a pointer: `*(T **)instance`. -/
  deref : Nat → Nat
  /-- The bytes of an `OCIString` (`OCIStringPtr`, `OCIStringSize`). -/
  OCIString : Nat → Bytes
  /-- The call `rb_obj_call_init(obj, 0, NULL)`: runs `initialize` of the
  object's class on the object and leaves it with these instance variables. -/
  rb_obj_call_init : Klass → Ivars → Except RbError Ivars
  /-- The call `OCIObjectNew(.., svc, typecode, tdo, .., &instancepp[idx])`;
  `none` is a non-success status. -/
  OCIObjectNew : (svc typecode tdo idx : Nat) → Option Nat
  /-- The top-level (atomic) null indicator stored at a `null_struct`
  address, `*(OCIInd *)null_struct`; 0 is `OCI_IND_NOTNULL`. -/
  atomic_ind : Nat → Int

/-! ## `oci8_tdo_init` (lines 73-204) -/

/-- The C library's `strncmp(s1, s2, n)`. A list that has ended reads as the
terminating NUL; `s1` of length `n` is never read past its end. -/
def strncmp : List Nat → List Nat → Nat → Int
  | _, _, 0 => 0
  | s1, s2, n + 1 =>
    if s1.headD 0 ≠ s2.headD 0 then (s1.headD 0 : Int) - (s2.headD 0 : Int)
    else if s1.headD 0 = 0 then 0
    else strncmp s1.tail s2.tail n

/-- The bytes of a C string literal. -/
def lit (s : String) : Bytes := s.toList.map Char.toNat

/-- A buffer read as a NUL-terminated C string. -/
def cstr (b : Bytes) : Bytes := b.takeWhile (fun c => c ≠ 0)

/-- Lines 106-126: the `opaque_type` of a type with type code `typecode` and
name `str` of length `slen = str.length`. -/
def opaque_dispatch (env : Env) (typecode : Nat) (str : Bytes) : Except RbError opaque_type :=
  let slen := str.length
  if typecode = OCI_TYPECODE_OPAQUE then
    if strncmp str (lit "XMLTYPE") slen = 0 then
      if env.HAVE_OCIXMLDB then .ok .OPAQUE_XMLTYPE
      else .error (.runtime "SYS.XMLTYPE is not supported by this library.")
    else if strncmp str (lit "ANYDATA") slen = 0 then
      .error (.runtime "SYS.ANYDATA has not been supported yet.")
    else if strncmp str (lit "ANYTYPE") slen = 0 then
      .error (.runtime "SYS.ANYTYPE has not been supported yet.")
    else if strncmp str (lit "ANYDATASET") slen = 0 then
      .error (.runtime "SYS.ANYDATASET has not been supported yet.")
    else .error (.unknown_opaque_datatype str)
  else .ok .NO_OPAQUE

/-- Lines 128-132: `rb_hash_aref(mapping, type_name)`, `rb_cObject` when nil. -/
def determine_klass (env : Env) (type_name : Bytes) : Klass :=
  match env.mapping.lookup type_name with
  | some klass => klass
  | none => .rb_cObject

/-- Lines 189-194: the symbol stored for an attribute name: `'@'` followed by
the lower-cased name, read by `rb_intern` as a C string. -/
def attr_sym (env : Env) (name_obj : Bytes) : Bytes :=
  cstr (64 :: env.OCIMultiByteStrCaseConversion (cstr name_obj))

/-- Lines 178-184: the Fixnum stored for an attribute that is neither OBJECT
nor OPAQUE. -/
def scalar_type_obj (typecode csfrm : Nat) : TypeObj :=
  if typecode = OCI_TYPECODE_CLOB then
    if csfrm = SQLCS_NCHAR then .fixnum OCI_TYPECODE_NCLOB else .fixnum typecode
  else .fixnum typecode

mutual
/-- The function `oci8_tdo_init(self, svcctx, param)`; the result is `self`
as initialised. -/
def oci8_tdo_init (env : Env) (svcctx : Nat) : TypeParam → Except RbError TypeObj
  | .mk typecode pinned schema_name type_name num_type_attrs lparam =>
    match opaque_dispatch env typecode type_name with
    | .error e => .error e
    | .ok ot =>
      let klass := determine_klass env type_name
      match describe_attrs env svcctx num_type_attrs lparam with
      | .error e => .error e
      | .ok (attrs, types) =>
        -- `for (idx = 1; idx <= num_type_attrs; idx++)` with `ub2 idx`
        if 65535 ≤ num_type_attrs then .error .counter_wraps
        else
          .ok (.tdo
            { hp := pinned
              svcctx := svcctx
              xmlctx := if ot = .OPAQUE_XMLTYPE then env.OCIXmlDbInitXmlCtx svcctx else 0
              opaque_type := ot
              schema_name := schema_name
              type_name := type_name
              klass := klass
              attrs := attrs
              attr_syms := attrs.map (attr_sym env) }
            types)
/-- Lines 141-188: the iterations of the first loop that remain when `n`
attributes are still to be read and `lparam` holds the entries from position
`idx` on; the result is the rest of `attrs` and of `types`. -/
def describe_attrs (env : Env) (svcctx : Nat) :
    Nat → AttrParamList → Except RbError (List Bytes × TypeList)
  | 0, _ => .ok ([], .nil)
  | _ + 1, .nil => .error (.oci "OCIParamGet")
  | n + 1, .cons (.mk name_obj typecode csfrm described) rest =>
    let type_obj : Except RbError TypeObj :=
      if typecode = OCI_TYPECODE_OBJECT ∨ typecode = OCI_TYPECODE_OPAQUE then
        match described with
        | .failed => .error (.oci "OCIDescribeAny")
        | .param p => oci8_tdo_init env svcctx p
      else .ok (scalar_type_obj typecode csfrm)
    match type_obj with
    | .error e => .error e
    | .ok t =>
      match describe_attrs env svcctx n rest with
      | .error e => .error e
      | .ok (attrs, types) => .ok (name_obj :: attrs, .cons t types)
end

/-! ## `oci8_tdo_hash`, `oci8_tdo_eq` (lines 217-232) -/

/-- The macro `LONG2FIX((long)ptr)` read back as an integer, for a 64-bit
`long`: the Fixnum keeps the low 63 bits, sign-extended. -/
def LONG2FIX (ptr : Nat) : Int :=
  ((ptr : Int) + 2 ^ 62) % 2 ^ 63 - 2 ^ 62

/-- The method `OCI8::TDO#hash`. -/
def oci8_tdo_hash (self : oci8_tdo_t) : Int :=
  LONG2FIX self.hp

/-- The method `OCI8::TDO#==`; a `rhs` that is no TDO gives `Qfalse`. -/
def oci8_tdo_eq (lhs : oci8_tdo_t) : TypeObj → Bool
  | .fixnum _ => false
  | .tdo r _ => decide (lhs.hp = r.hp)

/-! ## The decoder (lines 256-400) -/

/-- The call `rb_ivar_set(obj, id, val)` on the instance variables of `obj`. -/
def rb_ivar_set : Ivars → Bytes → VALUE → Ivars
  | [], id, val => [(id, val)]
  | (k, w) :: rest, id, val =>
    if k = id then (k, val) :: rest else (k, w) :: rb_ivar_set rest id val

/-- The value an instance variable holds, `none` when it is not defined. -/
def ivar : Ivars → Bytes → Option VALUE
  | [], _ => none
  | (k, w) :: rest, id => if k = id then some w else ivar rest id

/-- The function `orascalar_to_rubyobj(svcctx, typecode, instance)`. -/
def orascalar_to_rubyobj (env : Env) (svcctx typecode inst : Nat) : Except RbError VALUE :=
  if typecode = OCI_TYPECODE_CHAR ∨ typecode = OCI_TYPECODE_VARCHAR
      ∨ typecode = OCI_TYPECODE_VARCHAR2 ∨ typecode = OCI_TYPECODE_RAW then
    .ok (.str (env.OCIString (env.deref inst)))
  else if typecode = OCI_TYPECODE_NUMBER ∨ typecode = OCI_TYPECODE_DECIMAL then
    .ok (.made .oci8_make_ocinumber 0 inst)
  else if typecode = OCI_TYPECODE_INTEGER ∨ typecode = OCI_TYPECODE_SMALLINT then
    .ok (.made .oci8_make_integer 0 inst)
  else if typecode = OCI_TYPECODE_REAL ∨ typecode = OCI_TYPECODE_DOUBLE
      ∨ typecode = OCI_TYPECODE_FLOAT then
    .ok (.made .oci8_make_float 0 inst)
  else if typecode = OCI_TYPECODE_CLOB then
    .ok (.made .oci8_make_clob svcctx (env.deref inst))
  else if typecode = OCI_TYPECODE_NCLOB then
    .ok (.made .oci8_make_nclob svcctx (env.deref inst))
  else if typecode = OCI_TYPECODE_BLOB then
    .ok (.made .oci8_make_blob svcctx (env.deref inst))
  else if typecode = OCI_TYPECODE_BFILE then
    .ok (.made .oci8_make_bfile svcctx (env.deref inst))
  else if typecode = OCI_TYPECODE_DATE then
    .ok (.made .oci8_make_datetime_from_ocidate 0 inst)
  else if typecode = OCI_TYPECODE_TIMESTAMP ∨ typecode = OCI_TYPECODE_TIMESTAMP_TZ
      ∨ typecode = OCI_TYPECODE_TIMESTAMP_LTZ then
    .ok (.made .oci8_make_datetime_from_ocidatetime 0 (env.deref inst))
  else if typecode = OCI_TYPECODE_INTERVAL_YM then
    .ok (.made .oci8_make_interval_ym 0 (env.deref inst))
  else if typecode = OCI_TYPECODE_INTERVAL_DS then
    .ok (.made .oci8_make_interval_ds 0 (env.deref inst))
  else if typecode = OCI_TYPECODE_BFLOAT then
    .ok (.made .rb_float_new_float 0 inst)
  else if typecode = OCI_TYPECODE_BDOUBLE then
    .ok (.made .rb_float_new_double 0 inst)
  else .error (.unsupported_typecode typecode)

/-- The function `oraopaque_to_rubyobj(tdo_obj, instance, null_struct)`.
Without `HAVE_OCIXMLDB` the XMLTYPE case falls through to the ANYDATA case. -/
def oraopaque_to_rubyobj (env : Env) : TypeObj → Nat → Nat → Except RbError VALUE
  | .fixnum _, _, _ => .error .type_error
  | .tdo d _, inst, _ =>
    match d.opaque_type with
    | .OPAQUE_XMLTYPE =>
      if env.HAVE_OCIXMLDB then .ok (.made .oci8_make_rexml d.xmlctx inst)
      else .error (.runtime "sys.anydata has not been supported yet.")
    | .OPAQUE_ANYDATA => .error (.runtime "sys.anydata has not been supported yet.")
    | .OPAQUE_ANYTYPE => .error (.runtime "sys.anytype has not been supported yet.")
    | .OPAQUE_ANYDATASET => .error (.runtime "sys.anydataset has not been supported yet.")
    | .NO_OPAQUE => .ok .Qnil

/-- Lines 307-327 of `oraobject_to_rubyobj`: the value `attr_obj` of one
attribute of the TDO `d`, given the recorded `type`, what `OCIObjectGetAttr`
returned, and `nested`, the result of the recursive call
`oraobject_to_rubyobj(type, attr_value, attr_null_struct)` that the OBJECT
case makes. -/
def attr_obj (env : Env) (d : oci8_tdo_t) (type : TypeObj) (out : AttrOut)
    (nested : Except RbError VALUE) : Except RbError VALUE :=
  if out.attr_null_status ≠ 0 then .ok .Qnil
  else
    let typecode := env.OCITypeTypeCode out.attr_tdo
    if typecode = OCI_TYPECODE_OBJECT then nested
    else if typecode = OCI_TYPECODE_OPAQUE then
      oraopaque_to_rubyobj env type out.attr_value out.attr_null_struct
    else
      match type with
      | .fixnum n =>
        let typecode :=
          if typecode = OCI_TYPECODE_CLOB ∧ n = OCI_TYPECODE_NCLOB then OCI_TYPECODE_NCLOB
          else typecode
        if n ≠ typecode then .error (.runtime "unexpected type structure")
        else orascalar_to_rubyobj env d.svcctx typecode out.attr_value
      | .tdo _ _ => .error (.runtime "unexpected type structure")

mutual
/-- The function `oraobject_to_rubyobj(tdo_obj, instance, null_struct)`. -/
def oraobject_to_rubyobj (env : Env) : TypeObj → Nat → Nat → Except RbError VALUE
  | .fixnum _, _, _ => .error (.runtime "unexpected type structure")
  | .tdo d types, inst, null_struct =>
    match attr_loop env d d.attrs d.attr_syms types inst null_struct [] with
    | .error e => .error e
    | .ok ivars =>
      match env.rb_obj_call_init d.klass ivars with
      | .error e => .error e
      | .ok ivars => .ok (.object d.klass ivars)
/-- Lines 291-329: the iterations of the loop from index `i` on, given the
entries of `attrs`, `attr_syms` and `types` from `i` on and the instance
variables `obj` has so far. -/
def attr_loop (env : Env) (d : oci8_tdo_t) :
    List Bytes → List Bytes → TypeList → Nat → Nat → Ivars → Except RbError Ivars
  | [], _, _, _, _, obj => .ok obj
  | _ :: _, _, .nil, _, _, _ => .error .out_of_bounds
  | attr :: attrs, syms, .cons type types, inst, null_struct, obj =>
    match env.OCIObjectGetAttr inst null_struct d.hp attr with
    | none => .error (.oci "OCIObjectGetAttr")
    | some out =>
      match attr_obj env d type out
          (oraobject_to_rubyobj env type out.attr_value out.attr_null_struct) with
      | .error e => .error e
      | .ok v =>
        match syms with
        | [] => .error .out_of_bounds
        | sym :: syms => attr_loop env d attrs syms types inst null_struct (rb_ivar_set obj sym v)
end

/-- The function `bind_tdo_get(obind, data, null_struct)`, `tdo` being
`obind->tdo`. -/
def bind_tdo_get (env : Env) (tdo : TypeObj) (data null_struct : Nat) : Except RbError VALUE :=
  match tdo with
  | .fixnum _ => .error .type_error
  | .tdo d _ =>
    if d.opaque_type ≠ .NO_OPAQUE then oraopaque_to_rubyobj env tdo (env.deref data) null_struct
    else oraobject_to_rubyobj env tdo (env.deref data) null_struct

/-- The fields of `oci8_bind_t` that `tdo.c` uses. `valuep` is the array of
instance pointers (`none` when the pointer is `NULL`), `null_structs` the
array `u.null_structs`; `maxar_sz` is a `ub4`. -/
structure oci8_bind_t where
  tdo : TypeObj
  maxar_sz : Nat
  valuep : Option (List Nat)
  null_structs : List Nat

/-- Lines 432-435: the `do ... while (++idx < obind->maxar_sz)` loop of
`bind_tdo_init_elem` from index `idx` on. An index past the end of an array
is `out_of_bounds`. -/
def init_elem_loop (env : Env) (svc typecode tdo maxar_sz : Nat) (idx : Nat)
    (instancepp null_structs : List Nat) : Except RbError (List Nat × List Nat) :=
  match env.OCIObjectNew svc typecode tdo idx with
  | none => .error (.oci "OCIObjectNew")
  | some p =>
    if idx < instancepp.length ∧ idx < null_structs.length then
      if idx + 1 < maxar_sz then
        init_elem_loop env svc typecode tdo maxar_sz (idx + 1)
          (instancepp.set idx p) (null_structs.set idx 0)
      else .ok (instancepp.set idx p, null_structs.set idx 0)
    else .error .out_of_bounds
termination_by maxar_sz - idx

/-- The function `bind_tdo_init_elem(obind, svc)`; `svc` stands for the
service handle of `oci8_get_svcctx(svc)`. -/
def bind_tdo_init_elem (env : Env) (obind : oci8_bind_t) (svc : Nat) :
    Except RbError oci8_bind_t :=
  match obind.tdo with
  | .fixnum _ => .error .type_error
  | .tdo d _ =>
    let typecode :=
      if d.opaque_type ≠ .NO_OPAQUE then OCI_TYPECODE_OPAQUE else OCI_TYPECODE_OBJECT
    match obind.valuep with
    | none => .error .out_of_bounds
    | some instancepp =>
      match init_elem_loop env svc typecode d.hp obind.maxar_sz 0 instancepp
          obind.null_structs with
      | .error e => .error e
      | .ok (instancepp, null_structs) =>
        .ok { obind with valuep := some instancepp, null_structs := null_structs }

/-- What a run of `bind_tdo_free` did: the indices whose slot it tested, in
order, and the `(index, pointer)` pairs it passed to `OCIObjectFree`, in order. -/
structure FreeTrace where
  visited : List Nat
  freed : List (Nat × Nat)
  deriving DecidableEq, Repr

/-- Lines 242-247: the `do ... while (++idx < obind->maxar_sz)` loop of
`bind_tdo_free` from index `idx` on; `none` when a slot past the end of the
array is read. -/
def free_loop (maxar_sz : Nat) (idx : Nat) (instancepp : List Nat) (tr : FreeTrace) :
    Option (List Nat × FreeTrace) :=
  match instancepp[idx]? with
  | none => none
  | some p =>
    let instancepp1 := if p ≠ 0 then instancepp.set idx 0 else instancepp
    let tr1 : FreeTrace :=
      { visited := tr.visited ++ [idx]
        freed := if p ≠ 0 then tr.freed ++ [(idx, p)] else tr.freed }
    if idx + 1 < maxar_sz then free_loop maxar_sz (idx + 1) instancepp1 tr1
    else some (instancepp1, tr1)
termination_by maxar_sz - idx

/-- The function `bind_tdo_free(base)`: the trace of its loop and the bind
structure it leaves. `oci8_bind_free` is the function of that name, which
`tdo.c` calls last and does not define. -/
def bind_tdo_free (oci8_bind_free : oci8_bind_t → oci8_bind_t) (obind : oci8_bind_t) :
    Option (FreeTrace × oci8_bind_t) :=
  match obind.valuep with
  | none => some (⟨[], []⟩, oci8_bind_free obind)
  | some instancepp =>
    match free_loop obind.maxar_sz 0 instancepp ⟨[], []⟩ with
    | none => none
    | some (instancepp, tr) => some (tr, oci8_bind_free { obind with valuep := some instancepp })

/-! ## Sample inputs -/

/-- ASCII lower-casing, the behaviour of `OCIMultiByteStrCaseConversion` on
ASCII names. -/
def asciiLower (b : Bytes) : Bytes :=
  b.map (fun c => if 65 ≤ c ∧ c ≤ 90 then c + 32 else c)

/-- An environment in which every null structure at address 2 has the
top-level indicator `OCI_IND_NULL`, and in which every instance has these
attributes: `"A"` is null, `"a"` is a non-null NUMBER at address 20, `"B"`
and `"b"` are non-null NUMBERs at addresses 21 and 22, `"C"` is a non-null
CLOB at address 30, `"COLL"` a non-null collection at address 40,
`"O"` a non-null value of runtime type code OPAQUE at address 50; any other
attribute is a non-null OBJECT at address 60. A class's `initialize` leaves
the object as it is. -/
def sampleEnv : Env where
  HAVE_OCIXMLDB := true
  mapping := [(lit "PERSON", .user 1)]
  OCIXmlDbInitXmlCtx := fun _ => 77
  OCIMultiByteStrCaseConversion := asciiLower
  OCIObjectGetAttr := fun _ _ _ name =>
    if name = lit "A" then some ⟨OCI_IND_NULL, 0, 10, OCI_TYPECODE_NUMBER⟩
    else if name = lit "a" then some ⟨0, 0, 20, OCI_TYPECODE_NUMBER⟩
    else if name = lit "B" then some ⟨0, 0, 21, OCI_TYPECODE_NUMBER⟩
    else if name = lit "b" then some ⟨0, 0, 22, OCI_TYPECODE_NUMBER⟩
    else if name = lit "C" then some ⟨0, 0, 30, OCI_TYPECODE_CLOB⟩
    else if name = lit "COLL" then some ⟨0, 0, 40, OCI_TYPECODE_NAMEDCOLLECTION⟩
    else if name = lit "O" then some ⟨0, 0, 50, OCI_TYPECODE_OPAQUE⟩
    else some ⟨0, 0, 60, OCI_TYPECODE_OBJECT⟩
  OCITypeTypeCode := fun attr_tdo => attr_tdo
  deref := fun p => p
  OCIString := fun _ => []
  rb_obj_call_init := fun _ ivars => .ok ivars
  OCIObjectNew := fun _ _ _ idx => some (1000 + idx)
  atomic_ind := fun null_struct => if null_struct = 2 then OCI_IND_NULL else 0

/-- An OPAQUE type named `XMLTYPE` for which the metadata provider reports
one attribute `DATA` of an object type `T` that has no attributes. -/
def xmlParam : TypeParam :=
  .mk OCI_TYPECODE_OPAQUE 900 (lit "SYS") (lit "XMLTYPE") 1
    (.cons (.mk (lit "DATA") OCI_TYPECODE_OBJECT 0
      (.param (.mk OCI_TYPECODE_OBJECT 901 (lit "SYS") (lit "T") 0 .nil))) .nil)

/-- The data of the TDO of the object type `T`, which has no attributes. -/
def emptyData : oci8_tdo_t :=
  { hp := 901, svcctx := 5, xmlctx := 0, opaque_type := .NO_OPAQUE
    schema_name := lit "SYS", type_name := lit "T", klass := .rb_cObject
    attrs := [], attr_syms := [] }

/-- The TDO of the object type `T`. -/
def emptyTdo : TypeObj := .tdo emptyData .nil

/-- The data of the TDO that `oci8_tdo_init` builds for `xmlParam`. -/
def xmlData : oci8_tdo_t :=
  { hp := 900, svcctx := 5, xmlctx := 77, opaque_type := .OPAQUE_XMLTYPE
    schema_name := lit "SYS", type_name := lit "XMLTYPE", klass := .rb_cObject
    attrs := [lit "DATA"], attr_syms := [lit "@data"] }

/-- An object type `PERSON` with a NUMBER attribute `a` and a national CLOB
attribute `C`. -/
def personParam : TypeParam :=
  .mk OCI_TYPECODE_OBJECT 902 (lit "HR") (lit "PERSON") 2
    (.cons (.mk (lit "a") OCI_TYPECODE_NUMBER 0 .failed)
      (.cons (.mk (lit "C") OCI_TYPECODE_CLOB SQLCS_NCHAR .failed) .nil))

/-- The data of the TDO that `oci8_tdo_init` builds for `personParam`. -/
def personData : oci8_tdo_t :=
  { hp := 902, svcctx := 5, xmlctx := 0, opaque_type := .NO_OPAQUE
    schema_name := lit "HR", type_name := lit "PERSON", klass := .user 1
    attrs := [lit "a", lit "C"], attr_syms := [lit "@a", lit "@c"] }

/-- The types of the TDO that `oci8_tdo_init` builds for `personParam`. -/
def personTypes : TypeList :=
  .cons (.fixnum OCI_TYPECODE_NUMBER) (.cons (.fixnum OCI_TYPECODE_NCLOB) .nil)

/-- An object type `PAIR` whose two NUMBER attributes `A` and `a` differ in
case only. -/
def pairParam : TypeParam :=
  .mk OCI_TYPECODE_OBJECT 903 (lit "HR") (lit "PAIR") 2
    (.cons (.mk (lit "A") OCI_TYPECODE_NUMBER 0 .failed)
      (.cons (.mk (lit "a") OCI_TYPECODE_NUMBER 0 .failed) .nil))

/-- The data of the TDO that `oci8_tdo_init` builds for `pairParam`. -/
def pairData : oci8_tdo_t :=
  { hp := 903, svcctx := 5, xmlctx := 0, opaque_type := .NO_OPAQUE
    schema_name := lit "HR", type_name := lit "PAIR", klass := .rb_cObject
    attrs := [lit "A", lit "a"], attr_syms := [lit "@a", lit "@a"] }

/-- The types of the TDO that `oci8_tdo_init` builds for `pairParam`. -/
def pairTypes : TypeList :=
  .cons (.fixnum OCI_TYPECODE_NUMBER) (.cons (.fixnum OCI_TYPECODE_NUMBER) .nil)

/-- An object type `ROW` with a NUMBER attribute `A` and a CLOB attribute `C`. -/
def rowParam : TypeParam :=
  .mk OCI_TYPECODE_OBJECT 904 (lit "HR") (lit "ROW") 2
    (.cons (.mk (lit "A") OCI_TYPECODE_NUMBER 0 .failed)
      (.cons (.mk (lit "C") OCI_TYPECODE_CLOB 1 .failed) .nil))

/-- The data of the TDO that `oci8_tdo_init` builds for `rowParam`. -/
def rowData : oci8_tdo_t :=
  { hp := 904, svcctx := 5, xmlctx := 0, opaque_type := .NO_OPAQUE
    schema_name := lit "HR", type_name := lit "ROW", klass := .rb_cObject
    attrs := [lit "A", lit "C"], attr_syms := [lit "@a", lit "@c"] }

/-- The types of the TDO that `oci8_tdo_init` builds for `rowParam`. -/
def rowTypes : TypeList :=
  .cons (.fixnum OCI_TYPECODE_NUMBER) (.cons (.fixnum OCI_TYPECODE_CLOB) .nil)

/-- An object type `DEPT` with one attribute `COLL` of a collection type. -/
def deptParam : TypeParam :=
  .mk OCI_TYPECODE_OBJECT 905 (lit "HR") (lit "DEPT") 1
    (.cons (.mk (lit "COLL") OCI_TYPECODE_NAMEDCOLLECTION 0 .failed) .nil)

/-- The data of the TDO that `oci8_tdo_init` builds for `deptParam`. -/
def deptData : oci8_tdo_t :=
  { hp := 905, svcctx := 5, xmlctx := 0, opaque_type := .NO_OPAQUE
    schema_name := lit "HR", type_name := lit "DEPT", klass := .rb_cObject
    attrs := [lit "COLL"], attr_syms := [lit "@coll"] }

/-- An object type `TWIN` whose two NUMBER attributes `B` and `b` differ in
case only. -/
def twinParam : TypeParam :=
  .mk OCI_TYPECODE_OBJECT 908 (lit "HR") (lit "TWIN") 2
    (.cons (.mk (lit "B") OCI_TYPECODE_NUMBER 0 .failed)
      (.cons (.mk (lit "b") OCI_TYPECODE_NUMBER 0 .failed) .nil))

/-- The data of the TDO that `oci8_tdo_init` builds for `twinParam`. -/
def twinData : oci8_tdo_t :=
  { hp := 908, svcctx := 5, xmlctx := 0, opaque_type := .NO_OPAQUE
    schema_name := lit "HR", type_name := lit "TWIN", klass := .rb_cObject
    attrs := [lit "B", lit "b"], attr_syms := [lit "@b", lit "@b"] }

/-- An object type `HOLDER` with one attribute `O` of the object type `T`. -/
def holderParam : TypeParam :=
  .mk OCI_TYPECODE_OBJECT 906 (lit "HR") (lit "HOLDER") 1
    (.cons (.mk (lit "O") OCI_TYPECODE_OBJECT 0
      (.param (.mk OCI_TYPECODE_OBJECT 901 (lit "SYS") (lit "T") 0 .nil))) .nil)

/-- The data of the TDO that `oci8_tdo_init` builds for `holderParam`. -/
def holderData : oci8_tdo_t :=
  { hp := 906, svcctx := 5, xmlctx := 0, opaque_type := .NO_OPAQUE
    schema_name := lit "HR", type_name := lit "HOLDER", klass := .rb_cObject
    attrs := [lit "O"], attr_syms := [lit "@o"] }

/-- An object type `DOC` with one attribute `X` of the opaque type `XMLTYPE`,
for which the provider reports no attributes. -/
def docParam : TypeParam :=
  .mk OCI_TYPECODE_OBJECT 907 (lit "HR") (lit "DOC") 1
    (.cons (.mk (lit "X") OCI_TYPECODE_OPAQUE 0
      (.param (.mk OCI_TYPECODE_OPAQUE 900 (lit "SYS") (lit "XMLTYPE") 0 .nil))) .nil)

/-- The data of the TDO that `oci8_tdo_init` builds for `docParam`. -/
def docData : oci8_tdo_t :=
  { hp := 907, svcctx := 5, xmlctx := 0, opaque_type := .NO_OPAQUE
    schema_name := lit "HR", type_name := lit "DOC", klass := .rb_cObject
    attrs := [lit "X"], attr_syms := [lit "@x"] }

/-- The TDO of `XMLTYPE` nested in the TDO of `docParam`. -/
def xmltypeTdo : TypeObj :=
  .tdo
    { hp := 900, svcctx := 5, xmlctx := 77, opaque_type := .OPAQUE_XMLTYPE
      schema_name := lit "SYS", type_name := lit "XMLTYPE", klass := .rb_cObject
      attrs := [], attr_syms := [] }
    .nil

/-- A bind of the TDO of `T` for an array of three elements, before
`bind_tdo_init_elem`. -/
def sampleBind : oci8_bind_t :=
  { tdo := emptyTdo, maxar_sz := 3, valuep := some [0, 0, 0], null_structs := [0, 0, 0] }

/-! ## The claims' notions -/

/-- The type code a recorded type stands for: the scalar tag itself, OBJECT
for a nested TDO of opaque kind NONE, OPAQUE for a nested TDO of another kind. -/
def recorded_typecode : TypeObj → Nat
  | .fixnum n => n
  | .tdo d _ => if d.opaque_type = .NO_OPAQUE then OCI_TYPECODE_OBJECT else OCI_TYPECODE_OPAQUE

/-- A runtime type code agrees with the recorded type; a recorded NCLOB tag
with runtime CLOB counts as agreeing. -/
def typecode_agrees (type : TypeObj) (typecode : Nat) : Prop :=
  typecode = recorded_typecode type ∨
    (recorded_typecode type = OCI_TYPECODE_NCLOB ∧ typecode = OCI_TYPECODE_CLOB)

/-- The decode of `oraobject_to_rubyobj` with the value `v` for attribute
`i`: the loop over the attributes before `i`, the assignment of `v` to the
field `sym`, the loop over the attributes after `i`, and the call of
`initialize`. -/
def decode_assigning (env : Env) (d : oci8_tdo_t) (types : TypeList) (inst null_struct : Nat)
    (i : Nat) (sym : Bytes) (v : VALUE) : Except RbError VALUE :=
  match attr_loop env d (d.attrs.take i) (d.attr_syms.take i) (types.take i)
      inst null_struct [] with
  | .error e => .error e
  | .ok obj =>
    match attr_loop env d (d.attrs.drop (i + 1)) (d.attr_syms.drop (i + 1))
        (types.drop (i + 1)) inst null_struct (rb_ivar_set obj sym v) with
    | .error e => .error e
    | .ok ivars =>
      match env.rb_obj_call_init d.klass ivars with
      | .error e => .error e
      | .ok ivars => .ok (.object d.klass ivars)

/-- The type codes that have a case in `orascalar_to_rubyobj` (lines 360-397). -/
def scalar_typecodes : List Nat :=
  [OCI_TYPECODE_CHAR, OCI_TYPECODE_VARCHAR, OCI_TYPECODE_VARCHAR2, OCI_TYPECODE_RAW,
   OCI_TYPECODE_NUMBER, OCI_TYPECODE_DECIMAL, OCI_TYPECODE_INTEGER, OCI_TYPECODE_SMALLINT,
   OCI_TYPECODE_REAL, OCI_TYPECODE_DOUBLE, OCI_TYPECODE_FLOAT, OCI_TYPECODE_CLOB,
   OCI_TYPECODE_NCLOB, OCI_TYPECODE_BLOB, OCI_TYPECODE_BFILE, OCI_TYPECODE_DATE,
   OCI_TYPECODE_TIMESTAMP, OCI_TYPECODE_TIMESTAMP_TZ, OCI_TYPECODE_TIMESTAMP_LTZ,
   OCI_TYPECODE_INTERVAL_YM, OCI_TYPECODE_INTERVAL_DS, OCI_TYPECODE_BFLOAT,
   OCI_TYPECODE_BDOUBLE]

/-! ## Theorems -/

/-- What a successful `oci8_tdo_init` has computed. -/
theorem oci8_tdo_init_ok {env : Env} {svcctx typecode pinned : Nat} {schema_name type_name : Bytes}
    {n : Nat} {lparam : AttrParamList} {t : TypeObj}
    (h : oci8_tdo_init env svcctx (.mk typecode pinned schema_name type_name n lparam) = .ok t) :
    ∃ ot attrs types,
      opaque_dispatch env typecode type_name = .ok ot ∧
      describe_attrs env svcctx n lparam = .ok (attrs, types) ∧
      n < 65535 ∧
      t = .tdo
        { hp := pinned
          svcctx := svcctx
          xmlctx := if ot = .OPAQUE_XMLTYPE then env.OCIXmlDbInitXmlCtx svcctx else 0
          opaque_type := ot
          schema_name := schema_name
          type_name := type_name
          klass := determine_klass env type_name
          attrs := attrs
          attr_syms := attrs.map (attr_sym env) }
        types := by
  rw [oci8_tdo_init] at h
  split at h
  · cases h
  · rename_i ot hot
    split at h
    · cases h
    · rename_i attrs types hd
      split at h
      · cases h
      · rename_i hn
        refine ⟨ot, attrs, types, hot, hd, by omega, ?_⟩
        injection h with h
        exact h.symm

/-- Claim C7. The class recorded in `@klass` by a successful `oci8_tdo_init`
is the class registered in `OCI8::TDO::Mapping` for the type name when the
name is a key, and `Object` when it is not; the schema name plays no part. -/
theorem oci8_tdo_init_klass (env : Env) (svcctx : Nat) (p : TypeParam)
    (d : oci8_tdo_t) (types : TypeList)
    (h : oci8_tdo_init env svcctx p = .ok (.tdo d types)) :
    d.type_name = p.name ∧
    (∀ klass, env.mapping.lookup p.name = some klass → d.klass = klass) ∧
    (env.mapping.lookup p.name = none → d.klass = .rb_cObject) := by
  cases p with
  | mk typecode pinned schema_name type_name n lparam =>
    obtain ⟨ot, attrs, types1, -, -, -, ht⟩ := oci8_tdo_init_ok h
    injection ht with hd htypes
    subst hd
    refine ⟨rfl, ?_, ?_⟩
    · intro klass hk
      simp only [TypeParam.name] at hk
      simp only [determine_klass, hk]
    · intro hk
      simp only [TypeParam.name] at hk
      simp only [determine_klass, hk]

theorem oci8_tdo_init_klass_witness :
    oci8_tdo_init sampleEnv 5 personParam = .ok (.tdo personData personTypes) ∧
    personData.type_name = personParam.name ∧
    (∀ klass, sampleEnv.mapping.lookup personParam.name = some klass →
      personData.klass = klass) ∧
    (sampleEnv.mapping.lookup personParam.name = none → personData.klass = .rb_cObject) :=
  ⟨rfl, oci8_tdo_init_klass sampleEnv 5 personParam personData personTypes rfl⟩

/-- Claim C8. `==` on two TDOs holds exactly when their handle pointers are
identical, equal TDOs have equal `hash`, and `==` is reflexive, symmetric and
transitive. -/
theorem oci8_tdo_eq_iff_handle (a b c : oci8_tdo_t) (ta tb tc : TypeList) :
    (oci8_tdo_eq a (.tdo b tb) = true ↔ a.hp = b.hp) ∧
    (oci8_tdo_eq a (.tdo b tb) = true → oci8_tdo_hash a = oci8_tdo_hash b) ∧
    oci8_tdo_eq a (.tdo a ta) = true ∧
    (oci8_tdo_eq a (.tdo b tb) = true → oci8_tdo_eq b (.tdo a ta) = true) ∧
    (oci8_tdo_eq a (.tdo b tb) = true → oci8_tdo_eq b (.tdo c tc) = true →
      oci8_tdo_eq a (.tdo c tc) = true) := by
  have key : ∀ (x y : oci8_tdo_t) (ty : TypeList),
      oci8_tdo_eq x (.tdo y ty) = true ↔ x.hp = y.hp := by
    intro x y ty
    simp only [oci8_tdo_eq, decide_eq_true_eq]
  refine ⟨key a b tb, ?_, (key a a ta).2 rfl, ?_, ?_⟩
  · intro h
    simp only [oci8_tdo_hash, (key a b tb).1 h]
  · intro h
    exact (key b a ta).2 ((key a b tb).1 h).symm
  · intro h1 h2
    exact (key a c tc).2 (((key a b tb).1 h1).trans ((key b c tc).1 h2))

/-- Claim C4, evaluated on the code. For a parameter of type code OPAQUE the
names `"XML"` and `""` are taken for `XMLTYPE` and the name `"ANY"` for
`ANYDATA`: none of them ends in the "unknown opaque datatype" error, since
`strncmp` compares only the first `slen` bytes. -/
theorem oci8_tdo_init_opaque_name_prefix (env : Env) (svcctx pinned : Nat) (schema_name : Bytes) :
    oci8_tdo_init env svcctx (.mk OCI_TYPECODE_OPAQUE pinned schema_name (lit "XML") 0 .nil)
      = (if env.HAVE_OCIXMLDB then
          .ok (.tdo
            { hp := pinned, svcctx := svcctx, xmlctx := env.OCIXmlDbInitXmlCtx svcctx
              opaque_type := .OPAQUE_XMLTYPE, schema_name := schema_name
              type_name := lit "XML", klass := determine_klass env (lit "XML")
              attrs := [], attr_syms := [] }
            .nil)
        else .error (.runtime "SYS.XMLTYPE is not supported by this library.")) ∧
    oci8_tdo_init env svcctx (.mk OCI_TYPECODE_OPAQUE pinned schema_name [] 0 .nil)
      = (if env.HAVE_OCIXMLDB then
          .ok (.tdo
            { hp := pinned, svcctx := svcctx, xmlctx := env.OCIXmlDbInitXmlCtx svcctx
              opaque_type := .OPAQUE_XMLTYPE, schema_name := schema_name
              type_name := [], klass := determine_klass env []
              attrs := [], attr_syms := [] }
            .nil)
        else .error (.runtime "SYS.XMLTYPE is not supported by this library.")) ∧
    oci8_tdo_init env svcctx (.mk OCI_TYPECODE_OPAQUE pinned schema_name (lit "ANY") 0 .nil)
      = .error (.runtime "SYS.ANYDATA has not been supported yet.") := by
  refine ⟨?_, ?_, ?_⟩
  · have h : opaque_dispatch env OCI_TYPECODE_OPAQUE (lit "XML")
        = if env.HAVE_OCIXMLDB then .ok .OPAQUE_XMLTYPE
          else .error (.runtime "SYS.XMLTYPE is not supported by this library.") := rfl
    rw [oci8_tdo_init, h]
    cases env.HAVE_OCIXMLDB <;> rfl
  · have h : opaque_dispatch env OCI_TYPECODE_OPAQUE []
        = if env.HAVE_OCIXMLDB then .ok .OPAQUE_XMLTYPE
          else .error (.runtime "SYS.XMLTYPE is not supported by this library.") := rfl
    rw [oci8_tdo_init, h]
    cases env.HAVE_OCIXMLDB <;> rfl
  · rfl

/-- One iteration of the first loop of `oci8_tdo_init`. -/
theorem describe_attrs_cons (env : Env) (svcctx n : Nat) (name_obj : Bytes)
    (typecode csfrm : Nat) (described : Described) (rest : AttrParamList) :
    describe_attrs env svcctx (n + 1) (.cons (.mk name_obj typecode csfrm described) rest) =
      match (if typecode = OCI_TYPECODE_OBJECT ∨ typecode = OCI_TYPECODE_OPAQUE then
          match described with
          | .failed => .error (.oci "OCIDescribeAny")
          | .param p => oci8_tdo_init env svcctx p
        else .ok (scalar_type_obj typecode csfrm) : Except RbError TypeObj) with
      | .error e => .error e
      | .ok t =>
        match describe_attrs env svcctx n rest with
        | .error e => .error e
        | .ok (attrs, types) => .ok (name_obj :: attrs, .cons t types) := by
  rw [describe_attrs.eq_def]

/-- The first loop of `oci8_tdo_init` stores one name and one type for each
of the `n` attributes the provider counts, in the order of the list. -/
theorem describe_attrs_ok (env : Env) (svcctx : Nat) :
    ∀ (n : Nat) (lparam : AttrParamList) (attrs : List Bytes) (types : TypeList),
      describe_attrs env svcctx n lparam = .ok (attrs, types) →
      attrs = (lparam.toList.take n).map AttrParam.name ∧
      attrs.length = n ∧ types.toList.length = n := by
  intro n
  induction n with
  | zero =>
    intro lparam attrs types h
    have h0 : describe_attrs env svcctx 0 lparam = .ok ([], .nil) := by
      cases lparam <;> rfl
    rw [h0] at h
    injection h with h
    injection h with h1 h2
    subst h1 h2
    simp [TypeList.toList]
  | succ n ih =>
    intro lparam attrs types h
    cases lparam with
    | nil =>
      have h0 : describe_attrs env svcctx (n + 1) .nil = .error (.oci "OCIParamGet") := rfl
      rw [h0] at h
      cases h
    | cons a rest =>
      cases a with
      | mk name_obj typecode csfrm described =>
        rw [describe_attrs_cons] at h
        split at h
        · cases h
        · split at h
          · cases h
          · rename_i attrs1 types1 hrest
            injection h with h
            injection h with h1 h2
            subst h1 h2
            obtain ⟨e1, e2, e3⟩ := ih rest attrs1 types1 hrest
            refine ⟨?_, ?_, ?_⟩
            · simp [AttrParamList.toList, AttrParam.name, ← e1]
            · simp [e2]
            · simp [TypeList.toList, e3]

/-- Claim C10, as the code has it. For a TDO that `oci8_tdo_init` builds with
opaque kind XMLTYPE the attributes are enumerated as for any other type: the
name list holds the names of the first `num_type_attrs` attributes the
provider lists, and the name, field-identifier and type lists all have
`num_type_attrs` entries, so they are empty exactly when that count is 0. -/
theorem oci8_tdo_init_xmltype_attrs (env : Env) (svcctx : Nat) (p : TypeParam)
    (d : oci8_tdo_t) (types : TypeList)
    (h : oci8_tdo_init env svcctx p = .ok (.tdo d types))
    (hx : d.opaque_type = .OPAQUE_XMLTYPE) :
    d.attrs = (p.list_type_attrs.toList.take p.num_type_attrs).map AttrParam.name ∧
    d.attr_syms = d.attrs.map (attr_sym env) ∧
    d.attrs.length = p.num_type_attrs ∧
    d.attr_syms.length = p.num_type_attrs ∧
    types.toList.length = p.num_type_attrs := by
  cases p with
  | mk typecode pinned schema_name type_name n lparam =>
    obtain ⟨ot, attrs, types1, -, hd, -, ht⟩ := oci8_tdo_init_ok h
    injection ht with hd1 htypes
    subst hd1 htypes
    obtain ⟨e1, e2, e3⟩ := describe_attrs_ok env svcctx n lparam attrs types hd
    exact ⟨e1, rfl, e2, by simp [e2, TypeParam.num_type_attrs], e3⟩

/-- Claim C10 fails as stated: for the XMLTYPE parameter `xmlParam`, whose
provider reports one attribute of an object type, `oci8_tdo_init` returns a
TDO of opaque kind XMLTYPE whose three lists have one entry each, the type
entry being the TDO of a nested describe. -/
theorem oci8_tdo_init_xmltype_enumerates :
    oci8_tdo_init sampleEnv 5 xmlParam = .ok (.tdo xmlData (.cons emptyTdo .nil)) ∧
    xmlData.opaque_type = .OPAQUE_XMLTYPE ∧
    xmlData.attrs = [lit "DATA"] ∧ xmlData.attr_syms = [lit "@data"] := by
  exact ⟨rfl, rfl, rfl, rfl⟩

theorem oci8_tdo_init_xmltype_attrs_witness :
    oci8_tdo_init sampleEnv 5 xmlParam = .ok (.tdo xmlData (.cons emptyTdo .nil)) ∧
    xmlData.opaque_type = .OPAQUE_XMLTYPE ∧
    xmlData.attrs = (xmlParam.list_type_attrs.toList.take xmlParam.num_type_attrs).map
      AttrParam.name ∧
    xmlData.attr_syms = xmlData.attrs.map (attr_sym sampleEnv) ∧
    xmlData.attrs.length = xmlParam.num_type_attrs ∧
    xmlData.attr_syms.length = xmlParam.num_type_attrs ∧
    (TypeList.cons emptyTdo .nil).toList.length = xmlParam.num_type_attrs :=
  ⟨rfl, rfl, oci8_tdo_init_xmltype_attrs sampleEnv 5 xmlParam xmlData (.cons emptyTdo .nil)
    rfl rfl⟩

/-- The function `bind_tdo_get` itself has no test of the top-level null
indicator: for a TDO of opaque kind NONE every value it returns is a
constructed object of the TDO's class. -/
theorem bind_tdo_get_returns_object (env : Env) (d : oci8_tdo_t) (types : TypeList)
    (data null_struct : Nat) (v : VALUE)
    (hkind : d.opaque_type = .NO_OPAQUE)
    (h : bind_tdo_get env (.tdo d types) data null_struct = .ok v) :
    ∃ ivars, v = .object d.klass ivars := by
  simp only [bind_tdo_get, hkind, ne_eq, not_true_eq_false, if_false] at h
  rw [oraobject_to_rubyobj] at h
  split at h
  · cases h
  · split at h
    · cases h
    · rename_i ivars _
      injection h with h
      exact ⟨ivars, h.symm⟩

theorem bind_tdo_get_returns_object_witness :
    sampleEnv.atomic_ind 2 = OCI_IND_NULL ∧
    rowData.opaque_type = .NO_OPAQUE ∧
    bind_tdo_get sampleEnv (.tdo rowData rowTypes) 1 2
      = .ok (.object .rb_cObject
          [(lit "@a", .Qnil), (lit "@c", .made .oci8_make_clob 5 30)]) ∧
    ∃ ivars,
      VALUE.object .rb_cObject [(lit "@a", .Qnil), (lit "@c", .made .oci8_make_clob 5 30)]
        = .object rowData.klass ivars :=
  ⟨rfl, rfl, rfl, bind_tdo_get_returns_object sampleEnv rowData rowTypes 1 2 _ rfl rfl⟩

/-! ### Instance variables -/

theorem ivar_rb_ivar_set_same (obj : Ivars) (id : Bytes) (val : VALUE) :
    ivar (rb_ivar_set obj id val) id = some val := by
  induction obj with
  | nil => simp [rb_ivar_set, ivar]
  | cons kw rest ih =>
    obtain ⟨k, w⟩ := kw
    by_cases hk : k = id
    · simp [rb_ivar_set, ivar, hk]
    · simp [rb_ivar_set, ivar, hk, ih]

theorem ivar_rb_ivar_set_other (obj : Ivars) (id id1 : Bytes) (val : VALUE) (hne : id1 ≠ id) :
    ivar (rb_ivar_set obj id1 val) id = ivar obj id := by
  induction obj with
  | nil => simp [rb_ivar_set, ivar, hne]
  | cons kw rest ih =>
    obtain ⟨k, w⟩ := kw
    by_cases hk : k = id1
    · subst hk
      simp [rb_ivar_set, ivar, hne]
    · by_cases hk2 : k = id
      · subst hk2
        simp [rb_ivar_set, ivar, hk]
      · simp [rb_ivar_set, ivar, hk, hk2, ih]

theorem length_rb_ivar_set_new (obj : Ivars) (id : Bytes) (val : VALUE)
    (hnew : ivar obj id = none) : (rb_ivar_set obj id val).length = obj.length + 1 := by
  induction obj with
  | nil => simp [rb_ivar_set]
  | cons kw rest ih =>
    obtain ⟨k, w⟩ := kw
    by_cases hk : k = id
    · simp [ivar, hk] at hnew
    · simp only [ivar, hk, if_false] at hnew
      simp [rb_ivar_set, hk, ih hnew]

/-! ### The attribute loop of `oraobject_to_rubyobj` -/

/-- One iteration of the loop of `oraobject_to_rubyobj`. -/
theorem attr_loop_cons (env : Env) (d : oci8_tdo_t) (attr : Bytes) (attrs syms : List Bytes)
    (type : TypeObj) (types : TypeList) (inst null_struct : Nat) (obj : Ivars) :
    attr_loop env d (attr :: attrs) syms (.cons type types) inst null_struct obj =
      match env.OCIObjectGetAttr inst null_struct d.hp attr with
      | none => .error (.oci "OCIObjectGetAttr")
      | some out =>
        match attr_obj env d type out
            (oraobject_to_rubyobj env type out.attr_value out.attr_null_struct) with
        | .error e => .error e
        | .ok v =>
          match syms with
          | [] => .error .out_of_bounds
          | sym :: syms =>
            attr_loop env d attrs syms types inst null_struct (rb_ivar_set obj sym v) := by
  rw [attr_loop.eq_def]

theorem attr_loop_nil (env : Env) (d : oci8_tdo_t) (syms : List Bytes)
    (types : TypeList) (inst null_struct : Nat) (obj : Ivars) :
    attr_loop env d [] syms types inst null_struct obj = .ok obj := by
  rw [attr_loop.eq_def]

theorem attr_loop_types_nil (env : Env) (d : oci8_tdo_t) (attr : Bytes) (attrs syms : List Bytes)
    (inst null_struct : Nat) (obj : Ivars) :
    attr_loop env d (attr :: attrs) syms .nil inst null_struct obj = .error .out_of_bounds := by
  rw [attr_loop.eq_def]

/-- An identifier that no remaining attribute uses keeps its value. -/
theorem attr_loop_frame (env : Env) (d : oci8_tdo_t) (inst null_struct : Nat) (s : Bytes) :
    ∀ (attrs syms : List Bytes) (types : TypeList) (obj res : Ivars),
      (∀ j : Nat, syms[j]? ≠ some s) →
      attr_loop env d attrs syms types inst null_struct obj = .ok res →
      ivar res s = ivar obj s := by
  intro attrs
  induction attrs with
  | nil =>
    intro syms types obj res _ h
    rw [attr_loop_nil] at h
    injection h with h
    rw [h]
  | cons attr attrs ih =>
    intro syms types obj res hs h
    cases types with
    | nil => rw [attr_loop_types_nil] at h; cases h
    | cons type types =>
      rw [attr_loop_cons] at h
      split at h
      · cases h
      · split at h
        · cases h
        · cases syms with
          | nil => cases h
          | cons sym syms =>
            simp only at h
            have hne : sym ≠ s := by
              intro he
              exact hs 0 (by simp [he])
            rw [ih syms types _ res (fun j => by simpa using hs (j + 1)) h]
            exact ivar_rb_ivar_set_other obj s sym _ hne

/-- After a successful loop the field of attribute `i` holds the value
computed for attribute `i`, provided no later attribute has the same field
identifier. -/
theorem attr_loop_field (env : Env) (d : oci8_tdo_t) (inst null_struct : Nat)
    (a s : Bytes) (t : TypeObj) (out : AttrOut)
    (hget : env.OCIObjectGetAttr inst null_struct d.hp a = some out) :
    ∀ (attrs syms : List Bytes) (types : TypeList) (i : Nat) (obj res : Ivars),
      attrs[i]? = some a → syms[i]? = some s → types.toList[i]? = some t →
      (∀ j : Nat, i < j → syms[j]? ≠ some s) →
      attr_loop env d attrs syms types inst null_struct obj = .ok res →
      ∃ v, attr_obj env d t out
          (oraobject_to_rubyobj env t out.attr_value out.attr_null_struct) = .ok v ∧
        ivar res s = some v := by
  intro attrs
  induction attrs with
  | nil =>
    intro syms types i obj res ha
    simp at ha
  | cons attr attrs ih =>
    intro syms types i obj res ha hs ht hlater h
    cases types with
    | nil => rw [attr_loop_types_nil] at h; cases h
    | cons type types =>
      rw [attr_loop_cons] at h
      cases i with
      | zero =>
        simp only [List.getElem?_cons_zero, Option.some.injEq] at ha
        simp only [TypeList.toList, List.getElem?_cons_zero, Option.some.injEq] at ht
        subst ha ht
        rw [hget] at h
        simp only at h
        split at h
        · cases h
        · rename_i v hv
          cases syms with
          | nil => cases h
          | cons sym syms =>
            simp only [List.getElem?_cons_zero, Option.some.injEq] at hs
            subst hs
            simp only at h
            refine ⟨v, hv, ?_⟩
            rw [attr_loop_frame env d inst null_struct sym attrs syms types _ res
              (fun j => by simpa using hlater (j + 1) (by omega)) h]
            exact ivar_rb_ivar_set_same obj sym v
      | succ i =>
        simp only [List.getElem?_cons_succ] at ha
        simp only [TypeList.toList, List.getElem?_cons_succ] at ht
        split at h
        · cases h
        · split at h
          · cases h
          · cases syms with
            | nil => cases h
            | cons sym syms =>
              simp only [List.getElem?_cons_succ] at hs
              simp only at h
              exact ih syms types i _ res ha hs ht
                (fun j hj => by simpa using hlater (j + 1) (by omega)) h

/-- Claim C2 fails as stated: in the TDO of `pairParam` the attributes `A`
and `a` both get the field identifier `@a`; attribute `A` is null, and after
a successful decode the field `@a` holds the number decoded for `a`, not nil. -/
theorem null_attribute_field_overwritten :
    oci8_tdo_init sampleEnv 5 pairParam = .ok (.tdo pairData pairTypes) ∧
    sampleEnv.OCIObjectGetAttr 1 2 pairData.hp (lit "A")
      = some ⟨OCI_IND_NULL, 0, 10, OCI_TYPECODE_NUMBER⟩ ∧
    attr_sym sampleEnv (lit "A") = lit "@a" ∧
    oraobject_to_rubyobj sampleEnv (.tdo pairData pairTypes) 1 2
      = .ok (.object .rb_cObject [(lit "@a", .made .oci8_make_ocinumber 0 20)]) ∧
    ivar [(lit "@a", VALUE.made .oci8_make_ocinumber 0 20)] (lit "@a") ≠ some .Qnil := by
  refine ⟨rfl, rfl, rfl, rfl, ?_⟩
  intro h
  have h2 : ivar [(lit "@a", VALUE.made .oci8_make_ocinumber 0 20)] (lit "@a")
      = some (.made .oci8_make_ocinumber 0 20) := rfl
  rw [h2] at h
  injection h with h
  cases h

/-- Claim C2, as the code has it. If the library reports attribute `i` as
null, no later attribute has the same field identifier, and the class's
`initialize` leaves the assigned fields as they are, then after a successful
`oraobject_to_rubyobj` the field of attribute `i` holds nil, whatever type is
recorded for the attribute and whatever the other attributes are. -/
theorem null_attribute_field_nil (env : Env) (d : oci8_tdo_t) (types : TypeList)
    (inst null_struct i : Nat) (a s : Bytes) (t : TypeObj) (out : AttrOut) (v : VALUE)
    (ha : d.attrs[i]? = some a) (hs : d.attr_syms[i]? = some s)
    (ht : types.toList[i]? = some t)
    (hlater : ∀ j : Nat, i < j → d.attr_syms[j]? ≠ some s)
    (hget : env.OCIObjectGetAttr inst null_struct d.hp a = some out)
    (hnull : out.attr_null_status ≠ 0)
    (hcall : ∀ ivars, env.rb_obj_call_init d.klass ivars = .ok ivars)
    (h : oraobject_to_rubyobj env (.tdo d types) inst null_struct = .ok v) :
    ∃ ivars, v = .object d.klass ivars ∧ ivar ivars s = some .Qnil := by
  rw [oraobject_to_rubyobj] at h
  split at h
  · cases h
  · rename_i ivars hloop
    rw [hcall] at h
    simp only at h
    injection h with h
    refine ⟨ivars, h.symm, ?_⟩
    obtain ⟨w, hw, hfield⟩ := attr_loop_field env d inst null_struct a s t out hget
      d.attrs d.attr_syms types i [] ivars ha hs ht hlater hloop
    simp only [attr_obj, hnull, ne_eq, not_false_eq_true, if_true] at hw
    injection hw with hw
    rw [hfield, hw]

theorem null_attribute_field_nil_witness :
    rowData.attrs[0]? = some (lit "A") ∧ rowData.attr_syms[0]? = some (lit "@a") ∧
    rowTypes.toList[0]? = some (.fixnum OCI_TYPECODE_NUMBER) ∧
    (∀ j : Nat, 0 < j → rowData.attr_syms[j]? ≠ some (lit "@a")) ∧
    sampleEnv.OCIObjectGetAttr 1 2 rowData.hp (lit "A")
      = some ⟨OCI_IND_NULL, 0, 10, OCI_TYPECODE_NUMBER⟩ ∧
    oraobject_to_rubyobj sampleEnv (.tdo rowData rowTypes) 1 2
      = .ok (.object .rb_cObject
          [(lit "@a", .Qnil), (lit "@c", .made .oci8_make_clob 5 30)]) ∧
    ∃ ivars,
      VALUE.object .rb_cObject [(lit "@a", .Qnil), (lit "@c", .made .oci8_make_clob 5 30)]
        = .object rowData.klass ivars ∧
      ivar ivars (lit "@a") = some .Qnil := by
  have hlater : ∀ j : Nat, 0 < j → rowData.attr_syms[j]? ≠ some (lit "@a") := by
    intro j hj
    match j, hj with
    | 1, _ => decide
    | k + 2, _ => simp [rowData]
  exact ⟨rfl, rfl, rfl, hlater, rfl, rfl,
    null_attribute_field_nil sampleEnv rowData rowTypes 1 2 0 (lit "A") (lit "@a")
      (.fixnum OCI_TYPECODE_NUMBER) ⟨OCI_IND_NULL, 0, 10, OCI_TYPECODE_NUMBER⟩ _
      rfl rfl rfl hlater rfl (by decide) (fun _ => rfl) rfl⟩

/-- The value of an attribute whose runtime type code disagrees with the
recorded type is an error when the recorded type is a scalar tag or the
runtime code is neither OBJECT nor OPAQUE. -/
theorem attr_obj_mismatch (env : Env) (d : oci8_tdo_t) (t : TypeObj) (out : AttrOut)
    (hnn : out.attr_null_status = 0)
    (hdis : ¬ typecode_agrees t (env.OCITypeTypeCode out.attr_tdo))
    (hdet : (∃ n, t = .fixnum n) ∨
      (env.OCITypeTypeCode out.attr_tdo ≠ OCI_TYPECODE_OBJECT ∧
        env.OCITypeTypeCode out.attr_tdo ≠ OCI_TYPECODE_OPAQUE)) :
    ∃ e, attr_obj env d t out
      (oraobject_to_rubyobj env t out.attr_value out.attr_null_struct) = .error e := by
  cases t with
  | fixnum n =>
    simp only [typecode_agrees, recorded_typecode, not_or, not_and] at hdis
    obtain ⟨h1, h2⟩ := hdis
    simp only [attr_obj, hnn, ne_eq, not_true_eq_false, if_false]
    by_cases ho : env.OCITypeTypeCode out.attr_tdo = OCI_TYPECODE_OBJECT
    · rw [if_pos ho, oraobject_to_rubyobj]
      exact ⟨_, rfl⟩
    · rw [if_neg ho]
      by_cases hq : env.OCITypeTypeCode out.attr_tdo = OCI_TYPECODE_OPAQUE
      · rw [if_pos hq, oraopaque_to_rubyobj]
        exact ⟨_, rfl⟩
      · rw [if_neg hq]
        have hc : ¬ (env.OCITypeTypeCode out.attr_tdo = OCI_TYPECODE_CLOB ∧
            n = OCI_TYPECODE_NCLOB) := fun hh => h2 hh.2 hh.1
        simp only [hc, if_false]
        rw [if_pos (fun hh => h1 hh.symm)]
        exact ⟨_, rfl⟩
  | tdo d1 ts =>
    rcases hdet with ⟨n, hn⟩ | ⟨ho, hq⟩
    · cases hn
    · simp only [attr_obj, hnn, ne_eq, not_true_eq_false, if_false, ho, hq]
      exact ⟨_, rfl⟩

/-- The loop fails when the value of one of its attributes is an error. -/
theorem attr_loop_error_at (env : Env) (d : oci8_tdo_t) (inst null_struct : Nat)
    (a : Bytes) (t : TypeObj) (out : AttrOut) (e : RbError)
    (hget : env.OCIObjectGetAttr inst null_struct d.hp a = some out)
    (herr : attr_obj env d t out
      (oraobject_to_rubyobj env t out.attr_value out.attr_null_struct) = .error e) :
    ∀ (attrs syms : List Bytes) (types : TypeList) (i : Nat) (obj : Ivars),
      attrs[i]? = some a → types.toList[i]? = some t →
      ∃ e1, attr_loop env d attrs syms types inst null_struct obj = .error e1 := by
  intro attrs
  induction attrs with
  | nil =>
    intro syms types i obj ha
    simp at ha
  | cons attr attrs ih =>
    intro syms types i obj ha ht
    cases types with
    | nil => exact ⟨_, attr_loop_types_nil env d attr attrs syms inst null_struct obj⟩
    | cons type types =>
      rw [attr_loop_cons]
      cases i with
      | zero =>
        simp only [List.getElem?_cons_zero, Option.some.injEq] at ha
        simp only [TypeList.toList, List.getElem?_cons_zero, Option.some.injEq] at ht
        subst ha ht
        rw [hget]
        simp only [herr]
        exact ⟨_, rfl⟩
      | succ i =>
        simp only [List.getElem?_cons_succ] at ha
        simp only [TypeList.toList, List.getElem?_cons_succ] at ht
        split
        · exact ⟨_, rfl⟩
        · split
          · exact ⟨_, rfl⟩
          · cases syms with
            | nil => exact ⟨_, rfl⟩
            | cons sym syms => exact ih syms types i _ ha ht

/-- Claim C5 fails as stated: (1) in the TDO of `holderParam` attribute `O`
is recorded as a nested TDO of opaque kind NONE, its non-null value has the
runtime type code OPAQUE, and the decode succeeds with a nil field `@o`;
(2) in the TDO of `docParam` attribute `X` is recorded as a nested TDO of
opaque kind XMLTYPE, its non-null value has the runtime type code OBJECT, and
the decode succeeds with an object in field `@x`. -/
theorem oraobject_to_rubyobj_mismatch_undetected :
    (oci8_tdo_init sampleEnv 5 holderParam = .ok (.tdo holderData (.cons emptyTdo .nil)) ∧
      sampleEnv.OCIObjectGetAttr 1 2 holderData.hp (lit "O")
        = some ⟨0, 0, 50, OCI_TYPECODE_OPAQUE⟩ ∧
      ¬ typecode_agrees emptyTdo (sampleEnv.OCITypeTypeCode OCI_TYPECODE_OPAQUE) ∧
      oraobject_to_rubyobj sampleEnv (.tdo holderData (.cons emptyTdo .nil)) 1 2
        = .ok (.object .rb_cObject [(lit "@o", .Qnil)])) ∧
    (oci8_tdo_init sampleEnv 5 docParam = .ok (.tdo docData (.cons xmltypeTdo .nil)) ∧
      sampleEnv.OCIObjectGetAttr 1 2 docData.hp (lit "X")
        = some ⟨0, 0, 60, OCI_TYPECODE_OBJECT⟩ ∧
      ¬ typecode_agrees xmltypeTdo (sampleEnv.OCITypeTypeCode OCI_TYPECODE_OBJECT) ∧
      oraobject_to_rubyobj sampleEnv (.tdo docData (.cons xmltypeTdo .nil)) 1 2
        = .ok (.object .rb_cObject [(lit "@x", .object .rb_cObject [])])) := by
  refine ⟨⟨rfl, rfl, ?_, rfl⟩, ⟨rfl, rfl, ?_, rfl⟩⟩
  · simp [typecode_agrees, recorded_typecode, emptyTdo, emptyData, sampleEnv]
  · simp [typecode_agrees, recorded_typecode, xmltypeTdo, sampleEnv]

/-- Claim C5, as the code has it. If some non-null attribute's runtime type
code disagrees with the type recorded for it, and the recorded type is a
scalar tag or the runtime code is neither OBJECT nor OPAQUE, then
`oraobject_to_rubyobj` fails with an error and returns no value. -/
theorem oraobject_to_rubyobj_mismatch (env : Env) (d : oci8_tdo_t) (types : TypeList)
    (inst null_struct i : Nat) (a : Bytes) (t : TypeObj) (out : AttrOut)
    (ha : d.attrs[i]? = some a) (ht : types.toList[i]? = some t)
    (hget : env.OCIObjectGetAttr inst null_struct d.hp a = some out)
    (hnn : out.attr_null_status = 0)
    (hdis : ¬ typecode_agrees t (env.OCITypeTypeCode out.attr_tdo))
    (hdet : (∃ n, t = .fixnum n) ∨
      (env.OCITypeTypeCode out.attr_tdo ≠ OCI_TYPECODE_OBJECT ∧
        env.OCITypeTypeCode out.attr_tdo ≠ OCI_TYPECODE_OPAQUE)) :
    ∃ e, oraobject_to_rubyobj env (.tdo d types) inst null_struct = .error e := by
  obtain ⟨e, he⟩ := attr_obj_mismatch env d t out hnn hdis hdet
  obtain ⟨e1, he1⟩ := attr_loop_error_at env d inst null_struct a t out e hget he
    d.attrs d.attr_syms types i [] ha ht
  rw [oraobject_to_rubyobj, he1]
  exact ⟨e1, rfl⟩

theorem oraobject_to_rubyobj_mismatch_witness :
    rowData.attrs[1]? = some (lit "C") ∧
    pairTypes.toList[1]? = some (.fixnum OCI_TYPECODE_NUMBER) ∧
    sampleEnv.OCIObjectGetAttr 1 2 rowData.hp (lit "C") = some ⟨0, 0, 30, OCI_TYPECODE_CLOB⟩ ∧
    ¬ typecode_agrees (.fixnum OCI_TYPECODE_NUMBER)
      (sampleEnv.OCITypeTypeCode OCI_TYPECODE_CLOB) ∧
    ∃ e, oraobject_to_rubyobj sampleEnv (.tdo rowData pairTypes) 1 2 = .error e := by
  have hdis : ¬ typecode_agrees (.fixnum OCI_TYPECODE_NUMBER)
      (sampleEnv.OCITypeTypeCode OCI_TYPECODE_CLOB) := by
    simp [typecode_agrees, recorded_typecode, sampleEnv]
  exact ⟨rfl, rfl, rfl, hdis,
    oraobject_to_rubyobj_mismatch sampleEnv rowData pairTypes 1 2 1 (lit "C")
      (.fixnum OCI_TYPECODE_NUMBER) ⟨0, 0, 30, OCI_TYPECODE_CLOB⟩ rfl rfl rfl rfl hdis
      (Or.inl ⟨_, rfl⟩)⟩

/-- The type stored for attribute `i` when its type code is neither OBJECT
nor OPAQUE. -/
theorem describe_attrs_scalar (env : Env) (svcctx : Nat) :
    ∀ (n : Nat) (lparam : AttrParamList) (attrs : List Bytes) (types : TypeList)
      (i : Nat) (ap : AttrParam),
      describe_attrs env svcctx n lparam = .ok (attrs, types) →
      i < n → lparam.toList[i]? = some ap →
      ap.typecode ≠ OCI_TYPECODE_OBJECT → ap.typecode ≠ OCI_TYPECODE_OPAQUE →
      attrs[i]? = some ap.name ∧
      types.toList[i]? = some (scalar_type_obj ap.typecode ap.csfrm) := by
  intro n
  induction n with
  | zero =>
    intro lparam attrs types i ap _ hi
    omega
  | succ n ih =>
    intro lparam attrs types i ap h hi hap ho hq
    cases lparam with
    | nil => simp [AttrParamList.toList] at hap
    | cons a rest =>
      cases a with
      | mk name_obj typecode csfrm described =>
        rw [describe_attrs_cons] at h
        split at h
        · cases h
        · rename_i t0 ht0
          split at h
          · cases h
          · rename_i attrs1 types1 hrest
            injection h with h
            injection h with h1 h2
            subst h1 h2
            cases i with
            | zero =>
              simp only [AttrParamList.toList, List.getElem?_cons_zero,
                Option.some.injEq] at hap
              subst hap
              simp only [AttrParam.typecode] at ho hq
              simp only [ho, hq, or_self, if_false] at ht0
              injection ht0 with ht0
              subst ht0
              simp [TypeList.toList, AttrParam.name, AttrParam.typecode, AttrParam.csfrm]
            | succ i =>
              simp only [AttrParamList.toList, List.getElem?_cons_succ] at hap
              simpa [TypeList.toList] using
                ih rest attrs1 types1 i ap hrest (by omega) hap ho hq

/-- The loop of `oraobject_to_rubyobj` split at attribute `i`, whose value
is `v`: the loop over the attributes before `i`, the assignment of `v` to the
field of attribute `i`, and the loop over the attributes after `i`. -/
theorem attr_loop_split (env : Env) (d : oci8_tdo_t) (inst null_struct : Nat)
    (a s : Bytes) (t : TypeObj) (out : AttrOut) (v : VALUE)
    (hget : env.OCIObjectGetAttr inst null_struct d.hp a = some out)
    (hv : attr_obj env d t out
      (oraobject_to_rubyobj env t out.attr_value out.attr_null_struct) = .ok v) :
    ∀ (i : Nat) (attrs syms : List Bytes) (types : TypeList) (obj : Ivars),
      attrs[i]? = some a → syms[i]? = some s → types.toList[i]? = some t →
      attr_loop env d attrs syms types inst null_struct obj =
        match attr_loop env d (attrs.take i) (syms.take i) (types.take i)
            inst null_struct obj with
        | .error e => .error e
        | .ok obj1 =>
          attr_loop env d (attrs.drop (i + 1)) (syms.drop (i + 1)) (types.drop (i + 1))
            inst null_struct (rb_ivar_set obj1 s v) := by
  intro i
  induction i with
  | zero =>
    intro attrs syms types obj ha hs ht
    cases attrs with
    | nil => simp at ha
    | cons attr attrs =>
      cases types with
      | nil => simp [TypeList.toList] at ht
      | cons type types =>
        cases syms with
        | nil => simp at hs
        | cons sym syms =>
          simp only [List.getElem?_cons_zero, Option.some.injEq] at ha hs
          simp only [TypeList.toList, List.getElem?_cons_zero, Option.some.injEq] at ht
          subst ha hs ht
          rw [attr_loop_cons, hget]
          simp only [hv, List.take_zero, attr_loop_nil, zero_add, List.drop_succ_cons,
            List.drop_zero, TypeList.drop]
  | succ i ih =>
    intro attrs syms types obj ha hs ht
    cases attrs with
    | nil => simp at ha
    | cons attr attrs =>
      cases types with
      | nil => simp [TypeList.toList] at ht
      | cons type types =>
        cases syms with
        | nil => simp at hs
        | cons sym syms =>
          simp only [List.getElem?_cons_succ] at ha hs
          simp only [TypeList.toList, List.getElem?_cons_succ] at ht
          simp only [List.take_succ_cons, TypeList.take, List.drop_succ_cons, TypeList.drop]
          rw [attr_loop_cons, attr_loop_cons]
          cases env.OCIObjectGetAttr inst null_struct d.hp attr with
          | none => rfl
          | some out0 =>
            simp only
            cases attr_obj env d type out0
                (oraobject_to_rubyobj env type out0.attr_value out0.attr_null_struct) with
            | error e => rfl
            | ok v0 =>
              simp only
              exact ih attrs syms types _ ha hs ht

/-- Claim C6. For an attribute whose describe-time type code is CLOB,
`oci8_tdo_init` records the NCLOB tag when the character-set form is
`SQLCS_NCHAR` and the CLOB tag otherwise. When the library reports a non-null
value of that attribute with runtime type code CLOB, `oraobject_to_rubyobj`
passes the check and assigns to the attribute's field what the NCLOB case of
`orascalar_to_rubyobj` returns (`oci8_make_nclob`), respectively the CLOB case
(`oci8_make_clob`): the decode is the loop over the earlier attributes, that
assignment, the loop over the later attributes and `initialize`; and after a
successful decode the field holds that value when no later attribute has the
same field identifier and `initialize` leaves the fields as they are. -/
theorem clob_charset_form (env : Env) (svcctx : Nat) (p : TypeParam)
    (d : oci8_tdo_t) (types : TypeList) (i : Nat) (ap : AttrParam)
    (inst null_struct : Nat) (out : AttrOut)
    (hinit : oci8_tdo_init env svcctx p = .ok (.tdo d types))
    (hi : i < p.num_type_attrs)
    (hap : p.list_type_attrs.toList[i]? = some ap)
    (hclob : ap.typecode = OCI_TYPECODE_CLOB)
    (hget : env.OCIObjectGetAttr inst null_struct d.hp ap.name = some out)
    (hnn : out.attr_null_status = 0)
    (htc : env.OCITypeTypeCode out.attr_tdo = OCI_TYPECODE_CLOB) :
    d.attrs[i]? = some ap.name ∧
    d.attr_syms[i]? = some (attr_sym env ap.name) ∧
    (ap.csfrm = SQLCS_NCHAR →
      types.toList[i]? = some (.fixnum OCI_TYPECODE_NCLOB) ∧
      orascalar_to_rubyobj env d.svcctx OCI_TYPECODE_NCLOB out.attr_value
        = .ok (.made .oci8_make_nclob d.svcctx (env.deref out.attr_value)) ∧
      oraobject_to_rubyobj env (.tdo d types) inst null_struct
        = decode_assigning env d types inst null_struct i (attr_sym env ap.name)
            (.made .oci8_make_nclob d.svcctx (env.deref out.attr_value)) ∧
      ∀ v, (∀ j : Nat, i < j → d.attr_syms[j]? ≠ some (attr_sym env ap.name)) →
        (∀ ivars, env.rb_obj_call_init d.klass ivars = .ok ivars) →
        oraobject_to_rubyobj env (.tdo d types) inst null_struct = .ok v →
        ∃ ivars, v = .object d.klass ivars ∧
          ivar ivars (attr_sym env ap.name)
            = some (.made .oci8_make_nclob d.svcctx (env.deref out.attr_value))) ∧
    (ap.csfrm ≠ SQLCS_NCHAR →
      types.toList[i]? = some (.fixnum OCI_TYPECODE_CLOB) ∧
      orascalar_to_rubyobj env d.svcctx OCI_TYPECODE_CLOB out.attr_value
        = .ok (.made .oci8_make_clob d.svcctx (env.deref out.attr_value)) ∧
      oraobject_to_rubyobj env (.tdo d types) inst null_struct
        = decode_assigning env d types inst null_struct i (attr_sym env ap.name)
            (.made .oci8_make_clob d.svcctx (env.deref out.attr_value)) ∧
      ∀ v, (∀ j : Nat, i < j → d.attr_syms[j]? ≠ some (attr_sym env ap.name)) →
        (∀ ivars, env.rb_obj_call_init d.klass ivars = .ok ivars) →
        oraobject_to_rubyobj env (.tdo d types) inst null_struct = .ok v →
        ∃ ivars, v = .object d.klass ivars ∧
          ivar ivars (attr_sym env ap.name)
            = some (.made .oci8_make_clob d.svcctx (env.deref out.attr_value))) := by
  cases p with
  | mk typecode pinned schema_name type_name n lparam =>
    obtain ⟨ot, attrs, types1, -, hd, -, htdo⟩ := oci8_tdo_init_ok hinit
    injection htdo with hd1 htypes
    subst htypes
    have ha1 : d.attrs = attrs := by rw [hd1]
    have hs1 : d.attr_syms = d.attrs.map (attr_sym env) := by rw [hd1]
    simp only [TypeParam.num_type_attrs] at hi
    simp only [TypeParam.list_type_attrs] at hap
    obtain ⟨hname, htype⟩ := describe_attrs_scalar env svcctx n lparam attrs types i ap hd hi hap
      (by rw [hclob]; decide) (by rw [hclob]; decide)
    rw [← ha1] at hname
    have hsym : d.attr_syms[i]? = some (attr_sym env ap.name) := by
      rw [hs1]
      simp only [List.getElem?_map, hname, Option.map_some']
    have key : ∀ (tag : Nat) (val : VALUE),
        types.toList[i]? = some (.fixnum tag) →
        (∀ nested, attr_obj env d (.fixnum tag) out nested = .ok val) →
        oraobject_to_rubyobj env (.tdo d types) inst null_struct
          = decode_assigning env d types inst null_struct i (attr_sym env ap.name) val ∧
        ∀ v, (∀ j : Nat, i < j → d.attr_syms[j]? ≠ some (attr_sym env ap.name)) →
          (∀ ivars, env.rb_obj_call_init d.klass ivars = .ok ivars) →
          oraobject_to_rubyobj env (.tdo d types) inst null_struct = .ok v →
          ∃ ivars, v = .object d.klass ivars ∧ ivar ivars (attr_sym env ap.name) = some val := by
      intro tag val ht hval
      refine ⟨?_, ?_⟩
      · rw [oraobject_to_rubyobj, attr_loop_split env d inst null_struct ap.name
          (attr_sym env ap.name) (.fixnum tag) out val hget (hval _) i d.attrs d.attr_syms
          types [] hname hsym ht]
        simp only [decode_assigning]
        cases attr_loop env d (List.take i d.attrs) (List.take i d.attr_syms)
            (TypeList.take i types) inst null_struct [] with
        | error e => rfl
        | ok obj1 => rfl
      · intro v hlater hcall h
        rw [oraobject_to_rubyobj] at h
        split at h
        · cases h
        · rename_i ivars hloop
          rw [hcall] at h
          simp only at h
          injection h with h
          refine ⟨ivars, h.symm, ?_⟩
          obtain ⟨w, hw, hfield⟩ := attr_loop_field env d inst null_struct ap.name
            (attr_sym env ap.name) (.fixnum tag) out hget d.attrs d.attr_syms types i []
            ivars hname hsym ht hlater hloop
          rw [hval] at hw
          injection hw with hw
          rw [hfield, hw]
    refine ⟨hname, hsym, ?_, ?_⟩
    · intro hcs
      have ht : types.toList[i]? = some (.fixnum OCI_TYPECODE_NCLOB) := by
        rw [htype, hclob, hcs]
        rfl
      have hval : ∀ nested, attr_obj env d (.fixnum OCI_TYPECODE_NCLOB) out nested
          = .ok (.made .oci8_make_nclob d.svcctx (env.deref out.attr_value)) := by
        intro nested
        simp [attr_obj, hnn, htc, orascalar_to_rubyobj]
      exact ⟨ht, by simp [orascalar_to_rubyobj], key _ _ ht hval⟩
    · intro hcs
      have ht : types.toList[i]? = some (.fixnum OCI_TYPECODE_CLOB) := by
        rw [htype, hclob]
        simp [scalar_type_obj, hcs]
      have hval : ∀ nested, attr_obj env d (.fixnum OCI_TYPECODE_CLOB) out nested
          = .ok (.made .oci8_make_clob d.svcctx (env.deref out.attr_value)) := by
        intro nested
        simp [attr_obj, hnn, htc, orascalar_to_rubyobj]
      exact ⟨ht, by simp [orascalar_to_rubyobj], key _ _ ht hval⟩

theorem clob_charset_form_witness :
    oci8_tdo_init sampleEnv 5 personParam = .ok (.tdo personData personTypes) ∧
    1 < personParam.num_type_attrs ∧
    personParam.list_type_attrs.toList[1]?
      = some (.mk (lit "C") OCI_TYPECODE_CLOB SQLCS_NCHAR .failed) ∧
    sampleEnv.OCIObjectGetAttr 1 2 personData.hp (lit "C")
      = some ⟨0, 0, 30, OCI_TYPECODE_CLOB⟩ ∧
    personData.attrs[1]? = some (lit "C") ∧
    personData.attr_syms[1]? = some (lit "@c") ∧
    personTypes.toList[1]? = some (.fixnum OCI_TYPECODE_NCLOB) ∧
    orascalar_to_rubyobj sampleEnv 5 OCI_TYPECODE_NCLOB 30
      = .ok (.made .oci8_make_nclob 5 30) ∧
    oraobject_to_rubyobj sampleEnv (.tdo personData personTypes) 1 2
      = decode_assigning sampleEnv personData personTypes 1 2 1 (lit "@c")
          (.made .oci8_make_nclob 5 30) ∧
    oraobject_to_rubyobj sampleEnv (.tdo personData personTypes) 1 2
      = .ok (.object (.user 1)
          [(lit "@a", .made .oci8_make_ocinumber 0 20),
           (lit "@c", .made .oci8_make_nclob 5 30)]) := by
  have h := clob_charset_form sampleEnv 5 personParam personData personTypes 1
    (.mk (lit "C") OCI_TYPECODE_CLOB SQLCS_NCHAR .failed) 1 2 ⟨0, 0, 30, OCI_TYPECODE_CLOB⟩
    rfl (by decide) rfl rfl rfl rfl rfl
  exact ⟨rfl, by decide, rfl, rfl, h.1, h.2.1, (h.2.2.1 rfl).1, (h.2.2.1 rfl).2.1,
    (h.2.2.1 rfl).2.2.1, rfl⟩

/-- The scalar decoder returns a value for each type code of `scalar_typecodes`. -/
theorem orascalar_to_rubyobj_supported (env : Env) (svcctx typecode inst : Nat)
    (h : typecode ∈ scalar_typecodes) :
    ∃ v, orascalar_to_rubyobj env svcctx typecode inst = .ok v := by
  simp only [scalar_typecodes, List.mem_cons, List.mem_singleton, List.not_mem_nil,
    or_false] at h
  rcases h with h | h | h | h | h | h | h | h | h | h | h | h | h | h | h | h | h | h | h
    | h | h | h | h <;> subst h <;> exact ⟨_, rfl⟩

/-- A non-null attribute recorded with a supported scalar tag that the runtime
type code matches is decoded by the scalar decoder under the recorded tag. -/
theorem attr_obj_scalar (env : Env) (d : oci8_tdo_t) (n : Nat) (out : AttrOut)
    (nested : Except RbError VALUE)
    (hn : n ∈ scalar_typecodes) (hnn : out.attr_null_status = 0)
    (htc : env.OCITypeTypeCode out.attr_tdo = n ∨
      (n = OCI_TYPECODE_NCLOB ∧ env.OCITypeTypeCode out.attr_tdo = OCI_TYPECODE_CLOB)) :
    attr_obj env d (.fixnum n) out nested
      = orascalar_to_rubyobj env d.svcctx n out.attr_value := by
  have hn1 : n ≠ OCI_TYPECODE_OBJECT := by
    intro h
    subst h
    simp [scalar_typecodes] at hn
  have hn2 : n ≠ OCI_TYPECODE_OPAQUE := by
    intro h
    subst h
    simp [scalar_typecodes] at hn
  rcases htc with h | ⟨h1, h2⟩
  · have hc : ¬ (n = OCI_TYPECODE_CLOB ∧ n = OCI_TYPECODE_NCLOB) := by
      rintro ⟨e1, e2⟩
      rw [e1] at e2
      cases e2
    simp only [attr_obj, hnn, ne_eq, not_true_eq_false, if_false, h, hn1, hn2, hc]
  · subst h1
    simp [attr_obj, hnn, h2]

/-- The loop over attributes that are all non-null with supported scalar tags
and pairwise distinct field identifiers. -/
theorem attr_loop_scalars (env : Env) (d : oci8_tdo_t) (inst null_struct : Nat)
    (f : Bytes → Bytes) :
    ∀ (attrs : List Bytes) (types : TypeList) (obj : Ivars),
      types.toList.length = attrs.length →
      (∀ (i : Nat) (a : Bytes) (t : TypeObj), attrs[i]? = some a → types.toList[i]? = some t →
        ∃ n out, t = .fixnum n ∧ n ∈ scalar_typecodes ∧
          env.OCIObjectGetAttr inst null_struct d.hp a = some out ∧
          out.attr_null_status = 0 ∧
          (env.OCITypeTypeCode out.attr_tdo = n ∨
            (n = OCI_TYPECODE_NCLOB ∧
              env.OCITypeTypeCode out.attr_tdo = OCI_TYPECODE_CLOB))) →
      (attrs.map f).Nodup →
      (∀ a ∈ attrs, ivar obj (f a) = none) →
      ∃ res, attr_loop env d attrs (attrs.map f) types inst null_struct obj = .ok res ∧
        res.length = obj.length + attrs.length ∧
        (∀ k, k ∉ attrs.map f → ivar res k = ivar obj k) ∧
        (∀ (i : Nat) (a : Bytes) (n : Nat), attrs[i]? = some a →
          types.toList[i]? = some (.fixnum n) →
          ∃ out v, env.OCIObjectGetAttr inst null_struct d.hp a = some out ∧
            orascalar_to_rubyobj env d.svcctx n out.attr_value = .ok v ∧
            ivar res (f a) = some v) := by
  intro attrs
  induction attrs with
  | nil =>
    intro types obj _ _ _ _
    refine ⟨obj, attr_loop_nil env d _ types inst null_struct obj, by simp, ?_, ?_⟩
    · intro k _
      rfl
    · intro i a n ha
      simp at ha
  | cons attr attrs ih =>
    intro types obj hlen hgood hnodup hfresh
    cases types with
    | nil => simp [TypeList.toList] at hlen
    | cons type types =>
      simp only [TypeList.toList, List.length_cons, add_left_inj] at hlen
      obtain ⟨n, out, ht, hn, hget, hnn, htc⟩ := hgood 0 attr type (by simp)
        (by simp [TypeList.toList])
      subst ht
      obtain ⟨v, hv⟩ := orascalar_to_rubyobj_supported env d.svcctx n out.attr_value hn
      simp only [List.map_cons, List.nodup_cons] at hnodup
      obtain ⟨hnotin, hnodup1⟩ := hnodup
      have hfresh1 : ∀ a ∈ attrs, ivar (rb_ivar_set obj (f attr) v) (f a) = none := by
        intro a ha
        rw [ivar_rb_ivar_set_other]
        · exact hfresh a (List.mem_cons_of_mem _ ha)
        · intro he
          exact hnotin (he ▸ List.mem_map_of_mem f ha)
      obtain ⟨res, hres, hl, hframe, hfields⟩ := ih types (rb_ivar_set obj (f attr) v) hlen
        (fun i a t ha ht => hgood (i + 1) a t (by simpa using ha)
          (by simpa [TypeList.toList] using ht))
        hnodup1 hfresh1
      refine ⟨res, ?_, ?_, ?_, ?_⟩
      · rw [attr_loop_cons, hget]
        simp only [attr_obj_scalar env d n out _ hn hnn htc, hv, List.map_cons]
        exact hres
      · rw [hl, length_rb_ivar_set_new obj (f attr) v (hfresh attr (List.mem_cons_self _ _))]
        simp only [List.length_cons]
        omega
      · intro k hk
        simp only [List.map_cons, List.mem_cons, not_or] at hk
        rw [hframe k hk.2]
        exact ivar_rb_ivar_set_other obj k (f attr) v (fun he => hk.1 he.symm)
      · intro i a m ha ht
        cases i with
        | zero =>
          simp only [List.getElem?_cons_zero, Option.some.injEq] at ha
          simp only [TypeList.toList, List.getElem?_cons_zero, Option.some.injEq,
            TypeObj.fixnum.injEq] at ht
          subst ha ht
          refine ⟨out, v, hget, hv, ?_⟩
          rw [hframe (f attr) hnotin]
          exact ivar_rb_ivar_set_same obj (f attr) v
        | succ i =>
          exact hfields i a m (by simpa using ha) (by simpa [TypeList.toList] using ht)

/-- Claim C1 fails as stated: (1) the TDO of `deptParam` has one attribute
with the scalar tag NAMEDCOLLECTION, its value is non-null with the same
runtime type code, and `oraobject_to_rubyobj` raises "unsupported typecode"
instead of returning an object; (2) the TDO of `twinParam` has two NUMBER
attributes `B` and `b`, both non-null with runtime type code NUMBER, and the
object returned has one field. -/
theorem oraobject_to_rubyobj_scalar_fields_fail :
    (oci8_tdo_init sampleEnv 5 deptParam
        = .ok (.tdo deptData (.cons (.fixnum OCI_TYPECODE_NAMEDCOLLECTION) .nil)) ∧
      sampleEnv.OCIObjectGetAttr 1 2 deptData.hp (lit "COLL")
        = some ⟨0, 0, 40, OCI_TYPECODE_NAMEDCOLLECTION⟩ ∧
      oraobject_to_rubyobj sampleEnv
          (.tdo deptData (.cons (.fixnum OCI_TYPECODE_NAMEDCOLLECTION) .nil)) 1 2
        = .error (.unsupported_typecode OCI_TYPECODE_NAMEDCOLLECTION)) ∧
    (oci8_tdo_init sampleEnv 5 twinParam = .ok (.tdo twinData pairTypes) ∧
      sampleEnv.OCIObjectGetAttr 1 2 twinData.hp (lit "B")
        = some ⟨0, 0, 21, OCI_TYPECODE_NUMBER⟩ ∧
      sampleEnv.OCIObjectGetAttr 1 2 twinData.hp (lit "b")
        = some ⟨0, 0, 22, OCI_TYPECODE_NUMBER⟩ ∧
      oraobject_to_rubyobj sampleEnv (.tdo twinData pairTypes) 1 2
        = .ok (.object .rb_cObject [(lit "@b", .made .oci8_make_ocinumber 0 22)])) := by
  exact ⟨⟨rfl, rfl, rfl⟩, ⟨rfl, rfl, rfl, rfl⟩⟩

/-- Claim C1, as the code has it. Let `oci8_tdo_init` have built a TDO whose
`N` attributes all have scalar tags for which `orascalar_to_rubyobj` has a
case and whose field identifiers (`'@'` and the lower-cased name) are pairwise
distinct, let every attribute of the instance be non-null with a runtime type
code matching the recorded tag (CLOB for a recorded NCLOB), and let the
class's `initialize` leave the assigned fields as they are. Then
`oraobject_to_rubyobj` returns an object of the TDO's class with exactly `N`
fields, and the field of each attribute holds the result of
`orascalar_to_rubyobj` for the attribute's recorded tag. -/
theorem oraobject_to_rubyobj_scalar_fields (env : Env) (svcctx : Nat) (p : TypeParam)
    (d : oci8_tdo_t) (types : TypeList) (inst null_struct : Nat)
    (hinit : oci8_tdo_init env svcctx p = .ok (.tdo d types))
    (hattrs : ∀ (i : Nat) (a : Bytes) (t : TypeObj),
      d.attrs[i]? = some a → types.toList[i]? = some t →
      ∃ n out, t = .fixnum n ∧ n ∈ scalar_typecodes ∧
        env.OCIObjectGetAttr inst null_struct d.hp a = some out ∧
        out.attr_null_status = 0 ∧
        (env.OCITypeTypeCode out.attr_tdo = n ∨
          (n = OCI_TYPECODE_NCLOB ∧ env.OCITypeTypeCode out.attr_tdo = OCI_TYPECODE_CLOB)))
    (hdistinct : d.attr_syms.Nodup)
    (hcall : ∀ ivars, env.rb_obj_call_init d.klass ivars = .ok ivars) :
    ∃ ivars,
      oraobject_to_rubyobj env (.tdo d types) inst null_struct = .ok (.object d.klass ivars) ∧
      d.attrs.length = p.num_type_attrs ∧
      ivars.length = p.num_type_attrs ∧
      ∀ (i : Nat) (a : Bytes) (n : Nat),
        d.attrs[i]? = some a → types.toList[i]? = some (.fixnum n) →
        d.attr_syms[i]? = some (attr_sym env a) ∧
        ∃ out v, env.OCIObjectGetAttr inst null_struct d.hp a = some out ∧
          orascalar_to_rubyobj env d.svcctx n out.attr_value = .ok v ∧
          ivar ivars (attr_sym env a) = some v := by
  cases p with
  | mk typecode pinned schema_name type_name n lparam =>
    obtain ⟨ot, attrs, types1, -, hd, -, htdo⟩ := oci8_tdo_init_ok hinit
    injection htdo with hd1 htypes
    subst htypes
    obtain ⟨-, e2, e3⟩ := describe_attrs_ok env svcctx n lparam attrs types hd
    have ha1 : d.attrs = attrs := by rw [hd1]
    have hs1 : d.attr_syms = d.attrs.map (attr_sym env) := by rw [hd1]
    rw [hs1] at hdistinct
    obtain ⟨res, hres, hl, -, hfields⟩ := attr_loop_scalars env d inst null_struct (attr_sym env)
      d.attrs types [] (by rw [e3, ha1, e2]) hattrs hdistinct (fun _ _ => rfl)
    refine ⟨res, ?_, by rw [ha1, e2]; rfl, ?_, ?_⟩
    · rw [oraobject_to_rubyobj, hs1]
      simp only [hres, hcall]
    · simp only [hl, List.length_nil, zero_add, ha1, e2, TypeParam.num_type_attrs]
    · intro i a m ha ht
      refine ⟨?_, hfields i a m ha ht⟩
      rw [hs1]
      simp only [List.getElem?_map, ha, Option.map_some']

theorem oraobject_to_rubyobj_scalar_fields_witness :
    oci8_tdo_init sampleEnv 5 personParam = .ok (.tdo personData personTypes) ∧
    personData.attr_syms.Nodup ∧
    sampleEnv.OCIObjectGetAttr 1 2 personData.hp (lit "a")
      = some ⟨0, 0, 20, OCI_TYPECODE_NUMBER⟩ ∧
    sampleEnv.OCIObjectGetAttr 1 2 personData.hp (lit "C")
      = some ⟨0, 0, 30, OCI_TYPECODE_CLOB⟩ ∧
    ∃ ivars,
      oraobject_to_rubyobj sampleEnv (.tdo personData personTypes) 1 2
        = .ok (.object personData.klass ivars) ∧
      personData.attrs.length = personParam.num_type_attrs ∧
      ivars.length = personParam.num_type_attrs ∧
      ∀ (i : Nat) (a : Bytes) (n : Nat),
        personData.attrs[i]? = some a → personTypes.toList[i]? = some (.fixnum n) →
        personData.attr_syms[i]? = some (attr_sym sampleEnv a) ∧
        ∃ out v, sampleEnv.OCIObjectGetAttr 1 2 personData.hp a = some out ∧
          orascalar_to_rubyobj sampleEnv personData.svcctx n out.attr_value = .ok v ∧
          ivar ivars (attr_sym sampleEnv a) = some v := by
  have hattrs : ∀ (i : Nat) (a : Bytes) (t : TypeObj),
      personData.attrs[i]? = some a → personTypes.toList[i]? = some t →
      ∃ n out, t = .fixnum n ∧ n ∈ scalar_typecodes ∧
        sampleEnv.OCIObjectGetAttr 1 2 personData.hp a = some out ∧
        out.attr_null_status = 0 ∧
        (sampleEnv.OCITypeTypeCode out.attr_tdo = n ∨
          (n = OCI_TYPECODE_NCLOB ∧
            sampleEnv.OCITypeTypeCode out.attr_tdo = OCI_TYPECODE_CLOB)) := by
    intro i a t ha ht
    match i with
    | 0 =>
      simp only [personData, List.getElem?_cons_zero, Option.some.injEq] at ha
      simp only [personTypes, TypeList.toList, List.getElem?_cons_zero,
        Option.some.injEq] at ht
      subst ha ht
      exact ⟨OCI_TYPECODE_NUMBER, ⟨0, 0, 20, OCI_TYPECODE_NUMBER⟩, rfl, by decide, rfl, rfl,
        Or.inl rfl⟩
    | 1 =>
      simp only [personData, List.getElem?_cons_succ, List.getElem?_cons_zero,
        Option.some.injEq] at ha
      simp only [personTypes, TypeList.toList, List.getElem?_cons_succ,
        List.getElem?_cons_zero, Option.some.injEq] at ht
      subst ha ht
      exact ⟨OCI_TYPECODE_NCLOB, ⟨0, 0, 30, OCI_TYPECODE_CLOB⟩, rfl, by decide, rfl, rfl,
        Or.inr ⟨rfl, rfl⟩⟩
    | k + 2 => simp [personData] at ha
  exact ⟨rfl, by decide, rfl, rfl,
    oraobject_to_rubyobj_scalar_fields sampleEnv 5 personParam personData personTypes 1 2
      rfl hattrs (by decide) (fun _ => rfl)⟩

/-! ### The bind class -/

theorem getElem?_append_length (pre : List Nat) (p : Nat) (rest : List Nat) :
    (pre ++ p :: rest)[pre.length]? = some p := by
  induction pre with
  | nil => simp
  | cons x pre ih => simpa using ih

theorem set_append_length (pre : List Nat) (p x : Nat) (rest : List Nat) :
    (pre ++ p :: rest).set pre.length x = pre ++ x :: rest := by
  induction pre with
  | nil => simp
  | cons y pre ih => simp [ih]

/-- The loop of `bind_tdo_free` from index `pre.length` on, over an array
`pre ++ rest` of `max 1 maxar_sz` slots: it visits every remaining index,
frees the non-null slots among them and leaves them null. -/
theorem free_loop_spec (maxar_sz : Nat) :
    ∀ (rest pre : List Nat) (tr : FreeTrace),
      rest ≠ [] → pre.length + rest.length = max 1 maxar_sz →
      free_loop maxar_sz pre.length (pre ++ rest) tr =
        some (pre ++ List.replicate rest.length 0,
          { visited := tr.visited ++ List.range' pre.length rest.length
            freed := tr.freed ++
              ((List.range' pre.length rest.length).zip rest).filter (fun q => q.2 ≠ 0) }) := by
  intro rest
  induction rest with
  | nil =>
    intro pre tr h
    exact absurd rfl h
  | cons p rest ih =>
    intro pre tr _ hlen
    rw [free_loop, getElem?_append_length]
    simp only [set_append_length]
    have hset : (if p ≠ 0 then pre ++ 0 :: rest else pre ++ p :: rest) = pre ++ 0 :: rest := by
      by_cases hp : p = 0
      · simp [hp]
      · simp [hp]
    rw [hset]
    cases rest with
    | nil =>
      have hnot : ¬ pre.length + 1 < maxar_sz := by
        simp only [List.length_cons, List.length_nil] at hlen
        omega
      rw [if_neg hnot]
      by_cases hp : p = 0
      · simp [hp, List.range']
      · simp [hp, List.range']
    | cons q rest =>
      have hlt : pre.length + 1 < maxar_sz := by
        simp only [List.length_cons] at hlen
        omega
      rw [if_pos hlt]
      have h1 := ih (pre ++ [0]) { visited := tr.visited ++ [pre.length]
                                   freed := if p ≠ 0 then tr.freed ++ [(pre.length, p)]
                                            else tr.freed }
        (by simp) (by simp only [List.length_append, List.length_cons, List.length_nil] at hlen ⊢
                      omega)
      simp only [List.length_append, List.length_cons, List.length_nil, List.append_assoc,
        List.singleton_append, zero_add] at h1
      rw [h1]
      by_cases hp : p = 0
      · simp [hp, List.range', List.replicate_succ]
      · simp [hp, List.range', List.replicate_succ]

/-- The loop of `bind_tdo_init_elem` from index `pre.length` on, over an
array `pre ++ rest` of `max 1 maxar_sz` slots: when it succeeds, it has stored
in every remaining slot the instance that `OCIObjectNew` returned for it. -/
theorem init_elem_loop_spec (env : Env) (svc typecode tdo maxar_sz : Nat) :
    ∀ (rest pre null_structs ip ns : List Nat),
      rest ≠ [] → pre.length + rest.length = max 1 maxar_sz →
      init_elem_loop env svc typecode tdo maxar_sz pre.length (pre ++ rest) null_structs
        = .ok (ip, ns) →
      ∃ news, ip = pre ++ news ∧ news.length = rest.length ∧
        ∀ j, j < rest.length →
          news[j]? = env.OCIObjectNew svc typecode tdo (pre.length + j) := by
  intro rest
  induction rest with
  | nil =>
    intro pre null_structs ip ns h
    exact absurd rfl h
  | cons p rest ih =>
    intro pre null_structs ip ns _ hlen h
    rw [init_elem_loop] at h
    split at h
    · cases h
    · rename_i q hq
      split at h
      · rw [set_append_length] at h
        split at h
        · rename_i hlt
          cases rest with
          | nil =>
            simp only [List.length_cons, List.length_nil] at hlen
            omega
          | cons r rest =>
            have h1 := ih (pre ++ [q]) (null_structs.set pre.length 0) ip ns (by simp)
              (by simp only [List.length_append, List.length_cons, List.length_nil] at hlen ⊢
                  omega)
            simp only [List.length_append, List.length_cons, List.length_nil,
              List.append_assoc, List.singleton_append, zero_add] at h1
            obtain ⟨news, e1, e2, e3⟩ := h1 h
            refine ⟨q :: news, by simp [e1], by simp [e2], ?_⟩
            intro j hj
            cases j with
            | zero => simp [hq]
            | succ j =>
              simp only [List.getElem?_cons_succ]
              rw [e3 j (by simp only [List.length_cons] at hj ⊢; omega)]
              congr 1
              omega
        · rename_i hnot
          cases rest with
          | nil =>
            injection h with h
            injection h with h1 h2
            refine ⟨[q], h1.symm, rfl, ?_⟩
            intro j hj
            simp only [List.length_cons, List.length_nil] at hj
            have hj0 : j = 0 := by omega
            subst hj0
            simp [hq]
          | cons r rest =>
            simp only [List.length_cons] at hlen
            omega
      · cases h

/-- The function `bind_tdo_free` on an array of `max 1 maxar_sz` slots. -/
theorem bind_tdo_free_slots (oci8_bind_free : oci8_bind_t → oci8_bind_t) (obind : oci8_bind_t)
    (slots : List Nat) (hlen : slots.length = max 1 obind.maxar_sz) :
    bind_tdo_free oci8_bind_free { obind with valuep := some slots } =
      some (⟨List.range (max 1 obind.maxar_sz),
          ((List.range (max 1 obind.maxar_sz)).zip slots).filter (fun q => q.2 ≠ 0)⟩,
        oci8_bind_free
          { obind with valuep := some (List.replicate (max 1 obind.maxar_sz) 0) }) := by
  have hne : slots ≠ [] := by
    intro h
    rw [h] at hlen
    simp only [List.length_nil] at hlen
    omega
  have h := free_loop_spec obind.maxar_sz slots [] ⟨[], []⟩ hne
    (by simp only [List.length_nil, zero_add]; exact hlen)
  simp only [List.length_nil, List.nil_append] at h
  simp only [bind_tdo_free, h, hlen, List.range_eq_range']

/-- Claim C9. Let `bind_tdo_init_elem` have populated the value array of a
bind with declared maximum size `maxar_sz` (the array has `max 1 maxar_sz`
slots, one for a bind that is not an array), and let any subset of the slots
then be set to null. `bind_tdo_free` visits every slot, passes each non-null
slot to `OCIObjectFree` once and no null slot, and leaves every slot null;
run again on the array so left, or on a bind whose array pointer is `NULL`,
it frees nothing. -/
theorem bind_tdo_free_releases (env : Env) (oci8_bind_free : oci8_bind_t → oci8_bind_t)
    (obind b1 : oci8_bind_t) (svc : Nat) (slots0 : List Nat) (d : oci8_tdo_t) (types : TypeList)
    (htdo : obind.tdo = .tdo d types)
    (hv : obind.valuep = some slots0)
    (hlen : slots0.length = max 1 obind.maxar_sz)
    (hinit : bind_tdo_init_elem env obind svc = .ok b1) :
    ∃ populated : List Nat,
      b1.valuep = some populated ∧ b1.maxar_sz = obind.maxar_sz ∧
      populated.length = max 1 obind.maxar_sz ∧
      (∀ i, i < max 1 obind.maxar_sz →
        populated[i]? = env.OCIObjectNew svc
          (if d.opaque_type ≠ .NO_OPAQUE then OCI_TYPECODE_OPAQUE else OCI_TYPECODE_OBJECT)
          d.hp i) ∧
      ∀ (nulled : List Bool), nulled.length = max 1 obind.maxar_sz →
        bind_tdo_free oci8_bind_free
            { b1 with valuep := some (List.zipWith (fun (z : Bool) p => if z then 0 else p)
                nulled populated) } =
          some (⟨List.range (max 1 obind.maxar_sz),
              ((List.range (max 1 obind.maxar_sz)).zip
                (List.zipWith (fun (z : Bool) p => if z then 0 else p) nulled populated)).filter
                (fun q => q.2 ≠ 0)⟩,
            oci8_bind_free
              { b1 with valuep := some (List.replicate (max 1 obind.maxar_sz) 0) }) ∧
        bind_tdo_free oci8_bind_free
            { b1 with valuep := some (List.replicate (max 1 obind.maxar_sz) 0) } =
          some (⟨List.range (max 1 obind.maxar_sz), []⟩,
            oci8_bind_free
              { b1 with valuep := some (List.replicate (max 1 obind.maxar_sz) 0) }) ∧
        bind_tdo_free oci8_bind_free { b1 with valuep := none } =
          some (⟨[], []⟩, oci8_bind_free { b1 with valuep := none }) := by
  have hne : slots0 ≠ [] := by
    intro h
    rw [h] at hlen
    simp only [List.length_nil] at hlen
    omega
  simp only [bind_tdo_init_elem, hv, htdo] at hinit
  split at hinit
  · cases hinit
  · rename_i ip ns hloop
    · injection hinit with hb1
      obtain ⟨news, e1, e2, e3⟩ := init_elem_loop_spec env svc _ d.hp obind.maxar_sz slots0 []
        obind.null_structs ip ns hne (by simp only [List.length_nil, zero_add]; exact hlen) hloop
      simp only [List.nil_append, List.length_nil, zero_add] at e1 e3
      subst e1
      have hm : b1.maxar_sz = obind.maxar_sz := by rw [← hb1]
      refine ⟨ip, by rw [← hb1], hm, by rw [e2, hlen], ?_, ?_⟩
      · intro i hi
        exact e3 i (by rw [hlen]; exact hi)
      · intro nulled hnl
        refine ⟨?_, ?_, ?_⟩
        · have h := bind_tdo_free_slots oci8_bind_free b1
            (List.zipWith (fun (z : Bool) p => if z then 0 else p) nulled ip)
            (by rw [List.length_zipWith, hnl, e2, hlen, hm]; simp)
          rw [hm] at h ⊢
          exact h
        · have h := bind_tdo_free_slots oci8_bind_free b1
            (List.replicate (max 1 obind.maxar_sz) 0) (by rw [List.length_replicate, hm])
          rw [hm] at h ⊢
          rw [h]
          congr 2
          simp only [FreeTrace.mk.injEq, true_and, List.filter_eq_nil_iff]
          intro q hq
          have := (List.of_mem_zip hq).2
          simp only [List.mem_replicate] at this
          simp [this.2]
        · rfl

theorem bind_tdo_free_releases_witness :
    sampleBind.tdo = .tdo emptyData .nil ∧
    sampleBind.valuep = some [0, 0, 0] ∧
    [0, 0, 0].length = max 1 sampleBind.maxar_sz ∧
    bind_tdo_init_elem sampleEnv sampleBind 7
      = .ok { sampleBind with valuep := some [1000, 1001, 1002] } ∧
    ∃ populated : List Nat,
      some [1000, 1001, 1002] = some populated ∧
      sampleBind.maxar_sz = sampleBind.maxar_sz ∧
      populated.length = max 1 sampleBind.maxar_sz ∧
      (∀ i, i < max 1 sampleBind.maxar_sz →
        populated[i]? = sampleEnv.OCIObjectNew 7
          (if emptyData.opaque_type ≠ .NO_OPAQUE then OCI_TYPECODE_OPAQUE
            else OCI_TYPECODE_OBJECT)
          emptyData.hp i) ∧
      ∀ (nulled : List Bool), nulled.length = max 1 sampleBind.maxar_sz →
        bind_tdo_free id
            { sampleBind with valuep := some (List.zipWith
                (fun (z : Bool) p => if z then 0 else p) nulled populated) } =
          some (⟨List.range (max 1 sampleBind.maxar_sz),
              ((List.range (max 1 sampleBind.maxar_sz)).zip
                (List.zipWith (fun (z : Bool) p => if z then 0 else p) nulled populated)).filter
                (fun q => q.2 ≠ 0)⟩,
            id { sampleBind with
              valuep := some (List.replicate (max 1 sampleBind.maxar_sz) 0) }) ∧
        bind_tdo_free id
            { sampleBind with
              valuep := some (List.replicate (max 1 sampleBind.maxar_sz) 0) } =
          some (⟨List.range (max 1 sampleBind.maxar_sz), []⟩,
            id { sampleBind with
              valuep := some (List.replicate (max 1 sampleBind.maxar_sz) 0) }) ∧
        bind_tdo_free id { sampleBind with valuep := none } =
          some (⟨[], []⟩, id { sampleBind with valuep := none }) := by
  have hinit : bind_tdo_init_elem sampleEnv sampleBind 7
      = .ok { sampleBind with valuep := some [1000, 1001, 1002] } := by
    simp [bind_tdo_init_elem, sampleBind, emptyTdo, emptyData, init_elem_loop, sampleEnv]
  exact ⟨rfl, rfl, by decide, hinit,
    bind_tdo_free_releases sampleEnv id sampleBind _ 7 [0, 0, 0] emptyData .nil rfl rfl
      (by decide) hinit⟩

/-- The function `bind_tdo_free` run on the populated array of `sampleBind`
after its middle slot has been set to null. -/
theorem bind_tdo_free_example :
    bind_tdo_free id { sampleBind with valuep := some [1000, 0, 1002] } =
      some (⟨[0, 1, 2], [(0, 1000), (2, 1002)]⟩,
        { sampleBind with valuep := some [0, 0, 0] }) := by
  simp [bind_tdo_free, free_loop, sampleBind]

/-! ### Further properties -/

/-- After a successful `oci8_tdo_init` the arrays `@attrs`, `@attr_syms` and
`@types` have one entry per counted attribute, and every symbol is derived
from the name at the same index. -/
theorem oci8_tdo_init_aligned (env : Env) (svcctx : Nat) (p : TypeParam)
    (d : oci8_tdo_t) (types : TypeList)
    (h : oci8_tdo_init env svcctx p = .ok (.tdo d types)) :
    d.attrs.length = p.num_type_attrs ∧
    d.attr_syms.length = p.num_type_attrs ∧
    types.toList.length = p.num_type_attrs ∧
    d.attr_syms = d.attrs.map (attr_sym env) := by
  cases p with
  | mk typecode pinned schema_name type_name n lparam =>
    obtain ⟨ot, attrs, types1, -, hd, -, ht⟩ := oci8_tdo_init_ok h
    injection ht with hd1 htypes
    subst hd1 htypes
    obtain ⟨-, e2, e3⟩ := describe_attrs_ok env svcctx n lparam attrs types hd
    exact ⟨e2, by simp [e2, TypeParam.num_type_attrs], e3, rfl⟩

theorem oci8_tdo_init_aligned_witness :
    oci8_tdo_init sampleEnv 5 personParam = .ok (.tdo personData personTypes) ∧
    personData.attrs.length = personParam.num_type_attrs ∧
    personData.attr_syms.length = personParam.num_type_attrs ∧
    personTypes.toList.length = personParam.num_type_attrs ∧
    personData.attr_syms = personData.attrs.map (attr_sym sampleEnv) :=
  ⟨rfl, oci8_tdo_init_aligned sampleEnv 5 personParam personData personTypes rfl⟩

/-- For a parameter of type code OPAQUE the four names of the fixed set and
a name that is a prefix of none of them are treated as the messages say:
`XMLTYPE` gives the kind XMLTYPE with XML support and the "not supported"
error without, `ANYDATA`, `ANYTYPE` and `ANYDATASET` are refused as not yet
supported, and `FOOTYPE` is an unknown opaque datatype. -/
theorem opaque_dispatch_names (env : Env) :
    opaque_dispatch env OCI_TYPECODE_OPAQUE (lit "XMLTYPE")
      = (if env.HAVE_OCIXMLDB then .ok .OPAQUE_XMLTYPE
        else .error (.runtime "SYS.XMLTYPE is not supported by this library.")) ∧
    opaque_dispatch env OCI_TYPECODE_OPAQUE (lit "ANYDATA")
      = .error (.runtime "SYS.ANYDATA has not been supported yet.") ∧
    opaque_dispatch env OCI_TYPECODE_OPAQUE (lit "ANYTYPE")
      = .error (.runtime "SYS.ANYTYPE has not been supported yet.") ∧
    opaque_dispatch env OCI_TYPECODE_OPAQUE (lit "ANYDATASET")
      = .error (.runtime "SYS.ANYDATASET has not been supported yet.") ∧
    opaque_dispatch env OCI_TYPECODE_OPAQUE (lit "FOOTYPE")
      = .error (.unknown_opaque_datatype (lit "FOOTYPE")) := by
  exact ⟨rfl, rfl, rfl, rfl, rfl⟩

/-- Every prefix of `"XMLTYPE"`, the empty name included, is taken for
`XMLTYPE` by the name test of `oci8_tdo_init`. -/
theorem opaque_dispatch_xmltype_prefix (env : Env) (str : Bytes)
    (h : str <+: lit "XMLTYPE") :
    opaque_dispatch env OCI_TYPECODE_OPAQUE str
      = (if env.HAVE_OCIXMLDB then .ok .OPAQUE_XMLTYPE
        else .error (.runtime "SYS.XMLTYPE is not supported by this library.")) := by
  have hm : str ∈ (lit "XMLTYPE").inits := (List.mem_inits str _).2 h
  have hl : (lit "XMLTYPE").inits =
      [[], lit "X", lit "XM", lit "XML", lit "XMLT", lit "XMLTY", lit "XMLTYP",
       lit "XMLTYPE"] := by decide
  rw [hl] at hm
  simp only [List.mem_cons, List.mem_singleton, List.not_mem_nil, or_false] at hm
  rcases hm with h | h | h | h | h | h | h | h <;> subst h <;> rfl

theorem opaque_dispatch_xmltype_prefix_witness :
    lit "XMLT" <+: lit "XMLTYPE" ∧
    opaque_dispatch sampleEnv OCI_TYPECODE_OPAQUE (lit "XMLT")
      = (if sampleEnv.HAVE_OCIXMLDB then .ok .OPAQUE_XMLTYPE
        else .error (.runtime "SYS.XMLTYPE is not supported by this library.")) :=
  ⟨by decide, opaque_dispatch_xmltype_prefix sampleEnv (lit "XMLT") (by decide)⟩

/-- The opaque decoder by kind: a TDO of kind NONE gives nil, XMLTYPE gives
the XML value with XML support and the ANYDATA error without (the case falls
through), and the three ANY kinds always fail. -/
theorem oraopaque_to_rubyobj_kinds (env : Env) (d : oci8_tdo_t) (types : TypeList)
    (inst null_struct : Nat) :
    oraopaque_to_rubyobj env (.tdo d types) inst null_struct =
      match d.opaque_type with
      | .NO_OPAQUE => .ok .Qnil
      | .OPAQUE_XMLTYPE =>
        if env.HAVE_OCIXMLDB then .ok (.made .oci8_make_rexml d.xmlctx inst)
        else .error (.runtime "sys.anydata has not been supported yet.")
      | .OPAQUE_ANYDATA => .error (.runtime "sys.anydata has not been supported yet.")
      | .OPAQUE_ANYTYPE => .error (.runtime "sys.anytype has not been supported yet.")
      | .OPAQUE_ANYDATASET => .error (.runtime "sys.anydataset has not been supported yet.") := by
  rw [oraopaque_to_rubyobj]
  cases d.opaque_type <;> rfl

end OCI8
